import Mathlib

/-!
Verification development for the magpie-design language front-end:
a shallow embedding of the AST node model (src/magpie/ast/ast.go) and
the recursive-descent / precedence-climbing parser (src/magpie/parser,
file token.go in the source drop), together with theorems settling the
frozen claims about them.

Conventions of the embedding:
* Go `int` becomes `Int`; byte length of a Go string is `String.utf8ByteSize`,
  `utf8.RuneCountInString` is `String.length` (runes = characters).
* A nilable Go pointer/interface value becomes `Option _`; a Go function
  that can return `nil` returns `none` there.
* Stateful parser methods become explicit state passing over `PState`.
* Go loops and mutual recursion are modelled with a fuel parameter
  (structural recursion on `Nat`); concrete runs use ample fuel.
-/

/-- Position is the location of a code point in the source
(src/magpie/token/token.go, type Position). Go int fields become Int. -/
structure Position where
  filename : String
  offset : Int
  line : Int
  col : Int
deriving DecidableEq, Repr

/-- Stringer method for Position (token.go, Position.String):
`fmt.Sprint(" <", p.Line, ":", p.Col, "> ")`, with the filename variant. -/
def Position.str (p : Position) : String :=
  if p.filename = "" then
    " <" ++ toString p.line ++ ":" ++ toString p.col ++ "> "
  else
    " <" ++ p.filename ++ ":" ++ toString p.line ++ ":" ++ toString p.col ++ "> "

/-- Position.Sline (token.go): the line-only locator used by errorLines. -/
def Position.sline (p : Position) : String :=
  if p.filename = "" then
    toString p.line
  else
    " <" ++ p.filename ++ ":" ++ p.line.repr ++ "> "

/-- Token types (src/magpie/token/token.go). The constructors after
CONTINUE are referenced by the parser but their declarations are not in
the source drop; they are modelled from the spec (keywords `import`,
`struct`, `switch`, `case`, `default`, `fallthrough`, operators
`&&`, `||`, `=~`, `!~`, and regex literals). -/
inductive TokenType where
  | ILLEGAL | EOF
  | PLUS | MINUS | MULTIPLY | DIVIDE | MOD | POWER | INCREMENT | DECREMENT
  | LPAREN | RPAREN | ASSIGN | SEMICOLON | COLON | COMMA | DOT
  | LBRACE | RBRACE | BANG | LBRACKET | RBRACKET
  | LT | LE | GT | GE | EQ | NEQ
  | NUMBER | IDENTIFIER | STRING
  | TRUE | FALSE | NIL | LET | RETURN | FUNCTION | IF | ELSE
  | WHILE | DO | FOR | IN | BREAK | CONTINUE
  | AND | OR | MATCH | NOTMATCH | REGEX
  | IMPORT | STRUCT | SWITCH | CASE | DEFAULT | FALLTHROUGH
deriving DecidableEq, Repr

/-- TokenType.String (token.go): debug/testing rendering, used inside
error messages via %s. Cases for token types not declared in the source
drop are modelled after the same keyword/symbol convention. -/
def TokenType.str : TokenType → String
  | .ILLEGAL => "ILLEGAL"
  | .EOF => "EOF"
  | .PLUS => "+"
  | .MINUS => "-"
  | .MULTIPLY => "*"
  | .DIVIDE => "/"
  | .MOD => "%"
  | .POWER => "**"
  | .INCREMENT => "++"
  | .DECREMENT => "--"
  | .LPAREN => "("
  | .RPAREN => ")"
  | .ASSIGN => "="
  | .SEMICOLON => ";"
  | .COLON => ":"
  | .COMMA => ","
  | .DOT => "."
  | .LBRACE => "\x7b"
  | .RBRACE => "\x7d"
  | .BANG => "!"
  | .LBRACKET => "["
  | .RBRACKET => "]"
  | .LT => "<"
  | .LE => "<="
  | .GT => ">"
  | .GE => ">="
  | .EQ => "=="
  | .NEQ => "!="
  | .NUMBER => "NUMBER"
  | .IDENTIFIER => "IDENTIFIER"
  | .STRING => "STRING"
  | .TRUE => "TRUE"
  | .FALSE => "FALSE"
  | .NIL => "NIL"
  | .LET => "LET"
  | .RETURN => "RETURN"
  | .FUNCTION => "FUNCTION"
  | .IF => "IF"
  | .ELSE => "ELSE"
  | .WHILE => "WHILE"
  | .DO => "DO"
  | .FOR => "FOR"
  | .IN => "IN"
  | .BREAK => "BREAK"
  | .CONTINUE => "CONTINUE"
  | .AND => "&&"
  | .OR => "||"
  | .MATCH => "=~"
  | .NOTMATCH => "!~"
  | .REGEX => "REGEX"
  | .IMPORT => "IMPORT"
  | .STRUCT => "STRUCT"
  | .SWITCH => "SWITCH"
  | .CASE => "CASE"
  | .DEFAULT => "DEFAULT"
  | .FALLTHROUGH => "FALLTHROUGH"

/-- Token (token.go): position + type tag + literal text. -/
structure Tok where
  pos : Position
  type : TokenType
  literal : String
deriving DecidableEq, Repr

/-- Go `utf8.RuneCountInString`: the character (rune) count of a string. -/
def strRuneCount (s : String) : Nat := s.length

/-- Go `len` on a string: its byte length under UTF-8. -/
def strByteLen (s : String) : Nat := s.utf8ByteSize

/-- Precedence constants (parser, const block, iota starting at LOWEST = 1). -/
def precLowest : Int := 1

def precAssign : Int := 2

def precCondor : Int := 3

def precCondand : Int := 4

def precEquals : Int := 5

def precLessgreater : Int := 6

def precSum : Int := 7

def precProduct : Int := 8

def precRegexpMatch : Int := 9

def precPrefixOp : Int := 10

def precIncrement : Int := 11

def precCall : Int := 12

/-- The `precedences` map (parser): token type to binding precedence. -/
def precedenceOf : TokenType → Option Int
  | .ASSIGN => some precAssign
  | .OR => some precCondor
  | .AND => some precCondand
  | .EQ => some precEquals
  | .NEQ => some precEquals
  | .LT => some precLessgreater
  | .LE => some precLessgreater
  | .GT => some precLessgreater
  | .GE => some precLessgreater
  | .PLUS => some precSum
  | .MINUS => some precSum
  | .MULTIPLY => some precProduct
  | .DIVIDE => some precProduct
  | .MOD => some precProduct
  | .POWER => some precProduct
  | .LPAREN => some precCall
  | .DOT => some precCall
  | .LBRACKET => some precCall
  | .INCREMENT => some precIncrement
  | .DECREMENT => some precIncrement
  | .MATCH => some precRegexpMatch
  | .NOTMATCH => some precRegexpMatch
  | _ => none

/-- Names of the prefix parsing strategies a token type can be mapped to
(the `prefixParseFn` values registered in registerAction). -/
inductive PrefixFnName where
  | prefixIllegal | number | identifier | stringLit | functionLit
  | booleanLit | arrayLit | hashLit | regexpLit | nilLit
  | prefixExpr | grouped | ifExpr | switchExpr | fallthroughExpr
  | doLoop | whileLoop | forLoop | breakExpr | continueExpr
  | infixIllegal
deriving DecidableEq, Repr

/-- Names of the infix parsing strategies (the `infixParseFn` values). -/
inductive InfixFnName where
  | infixExpr | callExpr | indexExpr | postfixExpr | methodCallExpr | assignExpr
deriving DecidableEq, Repr

/-- The sequence of `registerPrefix` calls made by registerAction, in
program order. Note the final entry: line 362 of the parser reads
`p.registerPrefix(token.TOKEN_ILLEGAL, p.parseInfixIllegalExpression)` —
a registerPrefix call (not registerInfix), made right after
`p.infixParseFns = make(...)`; it therefore overwrites the prefix-table
entry for the illegal token instead of populating the infix table. -/
def registeredPrefixFns : List (TokenType × PrefixFnName) :=
  [(.ILLEGAL, .prefixIllegal),
   (.NUMBER, .number),
   (.IDENTIFIER, .identifier),
   (.STRING, .stringLit),
   (.FUNCTION, .functionLit),
   (.TRUE, .booleanLit),
   (.FALSE, .booleanLit),
   (.LBRACKET, .arrayLit),
   (.LBRACE, .hashLit),
   (.REGEX, .regexpLit),
   (.NIL, .nilLit),
   (.PLUS, .prefixExpr),
   (.MINUS, .prefixExpr),
   (.BANG, .prefixExpr),
   (.LPAREN, .grouped),
   (.IF, .ifExpr),
   (.SWITCH, .switchExpr),
   (.FALLTHROUGH, .fallthroughExpr),
   (.DO, .doLoop),
   (.WHILE, .whileLoop),
   (.FOR, .forLoop),
   (.BREAK, .breakExpr),
   (.CONTINUE, .continueExpr),
   (.ILLEGAL, .infixIllegal)]

/-- The sequence of `registerInfix` calls made by registerAction, in
program order. There is no entry for the illegal token type. -/
def registeredInfixFns : List (TokenType × InfixFnName) :=
  [(.PLUS, .infixExpr),
   (.MINUS, .infixExpr),
   (.MULTIPLY, .infixExpr),
   (.DIVIDE, .infixExpr),
   (.MOD, .infixExpr),
   (.POWER, .infixExpr),
   (.LPAREN, .callExpr),
   (.LBRACKET, .indexExpr),
   (.LT, .infixExpr),
   (.LE, .infixExpr),
   (.GT, .infixExpr),
   (.GE, .infixExpr),
   (.EQ, .infixExpr),
   (.NEQ, .infixExpr),
   (.AND, .infixExpr),
   (.OR, .infixExpr),
   (.MATCH, .infixExpr),
   (.NOTMATCH, .infixExpr),
   (.INCREMENT, .postfixExpr),
   (.DECREMENT, .postfixExpr),
   (.DOT, .methodCallExpr),
   (.ASSIGN, .assignExpr)]

/-- Lookup in a registration sequence with Go map-assignment semantics:
a later registration for the same key overwrites an earlier one. -/
def lookupRegistered {β : Type} (l : List (TokenType × β)) (t : TokenType) : Option β :=
  l.foldl (fun acc kv => if kv.1 = t then some kv.2 else acc) none

/-- The parser's prefix dispatch table (`p.prefixParseFns`) as built by
registerAction. -/
def prefixFnFor (t : TokenType) : Option PrefixFnName :=
  lookupRegistered registeredPrefixFns t

/-- The parser's infix dispatch table (`p.infixParseFns`) as built by
registerAction. -/
def infixFnFor (t : TokenType) : Option InfixFnName :=
  lookupRegistered registeredInfixFns t

/-!
The AST node model. Node shapes follow the structs the parser constructs
(ast.go of the source drop plus, for node kinds whose declarations are
not under the drop — tuples, switches, loops, imports and the plural
let/return fields — the spec §3 variant catalogue). A field holding a
nilable Go interface value becomes `Option _`; a Go slice that can be
the nil slice (as opposed to an empty one) becomes `Option (List _)`.
The float64 field of NumberLiteral is not modelled (floating point); the
node carries the literal text whose successful float-parse is modelled
separately by `goParseFloatOk`.
-/

mutual

inductive Expr where
  | identifier (tok : Tok) (value : String)
  | numberLit (tok : Tok) (literal : String)
  | stringLit (tok : Tok) (value : String)
  | regexLit (tok : Tok) (value : String)
  | booleanLit (tok : Tok) (value : Bool)
  | nilLit (tok : Tok)
  | arrayLit (tok : Tok) (members : Option (List (Option Expr)))
  | hashLit (tok : Tok) (pairs : List (Option Expr × Option Expr))
  | tupleLit (tok : Tok) (members : List (Option Expr))
  | functionLit (tok : Tok) (name : String) (params : Option (List Expr)) (body : Stmt)
  | prefixExpr (tok : Tok) (op : String) (right : Option Expr)
  | infixExpr (tok : Tok) (op : String) (left : Option Expr) (right : Option Expr)
  | postfixExpr (tok : Tok) (left : Option Expr) (op : String)
  | callExpr (tok : Tok) (function : Option Expr) (args : Option (List (Option Expr)))
  | indexExpr (tok : Tok) (left : Option Expr) (index : Option Expr)
  | methodCallExpr (tok : Tok) (obj : Option Expr) (call : Option Expr)
  | assignExpr (tok : Tok) (name : Option Expr) (value : Option Expr)
  | ifExpr (tok : Tok) (conditions : Option (List (Option IfCond))) (alternative : Option Stmt)
  | switchExpr (tok : Tok) (subject : Expr) (cases : List Case) (rbraceTok : Tok)
  | breakExpr (tok : Tok)
  | continueExpr (tok : Tok)
  | fallthroughExpr (tok : Tok)
  | doLoop (tok : Tok) (block : Stmt)
  | whileLoop (tok : Tok) (cond : Option Expr) (block : Stmt)
  | forEverLoop (tok : Tok) (block : Stmt)
  | cForLoop (tok : Tok) (init : Option Expr) (cond : Option Expr) (update : Option Expr) (block : Stmt)
  | forEachArrayLoop (tok : Tok) (varName : String) (value : Option Expr) (block : Stmt)
  | forEachMapLoop (tok : Tok) (key : String) (value : String) (x : Option Expr) (block : Stmt)

inductive Stmt where
  | letStmt (tok : Tok) (names : List Expr) (values : List (Option Expr))
  | returnStmt (tok : Tok) (returnValues : List (Option Expr))
  | blockStmt (tok : Tok) (statements : List Stmt) (rbraceTok : Tok)
  | exprStmt (tok : Tok) (expression : Option Expr)
  | importStmt (tok : Tok) (importPath : String) (program : Option Prog)
  | structStmt (tok : Tok) (name : String) (block : Stmt) (rbraceTok : Tok)

inductive IfCond where
  | mk (tok : Tok) (cond : Option Expr) (body : Stmt)

inductive Case where
  | mk (tok : Tok) (exprs : List (Option Expr)) (isDefault : Bool) (block : Stmt) (rbraceTok : Tok)

inductive Prog where
  | mk (statements : List Stmt) (imports : List (String × Stmt))

end

/-- Statements of a Program (tree root). -/
def Prog.statements : Prog → List Stmt
  | .mk ss _ => ss

/-- Import map of a Program: resolved import path to its ImportStatement,
in first-encounter order (the Go `map[string]*ast.ImportStatement` with
insert-if-absent, modelled as an association list). -/
def Prog.imports : Prog → List (String × Stmt)
  | .mk _ im => im

/-- Pos() of a statement: every statement variant returns its own
token's position (ast.go; the variants outside the source drop follow
the same pattern per spec §3). -/
def stmtPosOf : Stmt → Position
  | .letStmt tok _ _ => tok.pos
  | .returnStmt tok _ => tok.pos
  | .blockStmt tok _ _ => tok.pos
  | .exprStmt tok _ => tok.pos
  | .importStmt tok _ _ => tok.pos
  | .structStmt tok _ _ _ => tok.pos

mutual

/-- End() of an expression node, fuelled (`none` = the Go method would
dereference a nil child and panic, or fuel ran out). The identifier,
number-literal, boolean-literal, nil-literal, prefix and infix cases
mirror ast.go of the source drop exactly — note NilLiteral.End uses
`len(n.Token.Literal)` (byte length) where the others use
`utf8.RuneCountInString`. The remaining variants are not declared under
the source drop and are modelled from spec §3: End() derives from the
last child's End(), from a stored closing-brace token, or from the
token's position plus its character-count length. -/
def endPosExpr : Nat → Expr → Option Position
  | 0, _ => none
  | f+1, e =>
    match e with
    | .identifier tok v =>
        some ⟨tok.pos.filename, 0, tok.pos.line, tok.pos.col + (strRuneCount v : Int)⟩
    | .numberLit tok _ =>
        some ⟨tok.pos.filename, 0, tok.pos.line, tok.pos.col + (strRuneCount tok.literal : Int)⟩
    | .stringLit tok _ =>
        some ⟨tok.pos.filename, 0, tok.pos.line, tok.pos.col + (strRuneCount tok.literal : Int)⟩
    | .regexLit tok _ =>
        some ⟨tok.pos.filename, 0, tok.pos.line, tok.pos.col + (strRuneCount tok.literal : Int)⟩
    | .booleanLit tok _ =>
        some ⟨tok.pos.filename, 0, tok.pos.line, tok.pos.col + (strRuneCount tok.literal : Int)⟩
    | .nilLit tok =>
        some ⟨tok.pos.filename, 0, tok.pos.line, tok.pos.col + (strByteLen tok.literal : Int)⟩
    | .arrayLit tok ms =>
        match (ms.getD []).getLast? with
        | some m => endPosExprOpt f m
        | none => some ⟨tok.pos.filename, 0, tok.pos.line, tok.pos.col + (strRuneCount tok.literal : Int)⟩
    | .hashLit tok _ =>
        some ⟨tok.pos.filename, 0, tok.pos.line, tok.pos.col + (strRuneCount tok.literal : Int)⟩
    | .tupleLit tok ms =>
        match ms.getLast? with
        | some m => endPosExprOpt f m
        | none => some ⟨tok.pos.filename, 0, tok.pos.line, tok.pos.col + (strRuneCount tok.literal : Int)⟩
    | .functionLit _ _ _ body => endPosStmt f body
    | .prefixExpr _ _ r => endPosExprOpt f r
    | .infixExpr _ _ _ r => endPosExprOpt f r
    | .postfixExpr _ l _ => endPosExprOpt f l
    | .callExpr tok _ args =>
        match (args.getD []).getLast? with
        | some a => endPosExprOpt f a
        | none => some ⟨tok.pos.filename, 0, tok.pos.line, tok.pos.col + (strRuneCount tok.literal : Int)⟩
    | .indexExpr _ _ idx => endPosExprOpt f idx
    | .methodCallExpr _ _ c => endPosExprOpt f c
    | .assignExpr _ _ v => endPosExprOpt f v
    | .ifExpr tok conds alt =>
        match alt with
        | some a => endPosStmt f a
        | none =>
          match (conds.getD []).getLast? with
          | some (some (.mk _ _ body)) => endPosStmt f body
          | _ => some ⟨tok.pos.filename, 0, tok.pos.line, tok.pos.col + (strRuneCount tok.literal : Int)⟩
    | .switchExpr tok _ _ rb =>
        some ⟨tok.pos.filename, 0, rb.pos.line, rb.pos.col + 1⟩
    | .breakExpr tok =>
        some ⟨tok.pos.filename, 0, tok.pos.line, tok.pos.col + (strRuneCount tok.literal : Int)⟩
    | .continueExpr tok =>
        some ⟨tok.pos.filename, 0, tok.pos.line, tok.pos.col + (strRuneCount tok.literal : Int)⟩
    | .fallthroughExpr tok =>
        some ⟨tok.pos.filename, 0, tok.pos.line, tok.pos.col + (strRuneCount tok.literal : Int)⟩
    | .doLoop _ b => endPosStmt f b
    | .whileLoop _ _ b => endPosStmt f b
    | .forEverLoop _ b => endPosStmt f b
    | .cForLoop _ _ _ _ b => endPosStmt f b
    | .forEachArrayLoop _ _ _ b => endPosStmt f b
    | .forEachMapLoop _ _ _ _ b => endPosStmt f b

/-- End() through a nilable child: Go would call End() on a nil
interface value and panic, modelled as `none`. -/
def endPosExprOpt : Nat → Option Expr → Option Position
  | 0, _ => none
  | _+1, none => none
  | f+1, some e => endPosExpr f e

/-- End() of a statement node. The return, block and
expression-statement cases mirror ast.go of the source drop; letStmt
(plural form) and the variants outside the drop are modelled from
spec §3. -/
def endPosStmt : Nat → Stmt → Option Position
  | 0, _ => none
  | f+1, s =>
    match s with
    | .letStmt _ _ values =>
        match values.getLast? with
        | some v => endPosExprOpt f v
        | none => none
    | .returnStmt tok values =>
        match values.getLast? with
        | some v => endPosExprOpt f v
        | none =>
            some ⟨tok.pos.filename, 0, tok.pos.line, tok.pos.col + (strRuneCount tok.literal : Int)⟩
    | .blockStmt tok _ rb =>
        some ⟨tok.pos.filename, 0, rb.pos.line, rb.pos.col + 1⟩
    | .exprStmt _ e => endPosExprOpt f e
    | .importStmt tok _ _ =>
        some ⟨tok.pos.filename, 0, tok.pos.line, tok.pos.col + (strRuneCount tok.literal : Int)⟩
    | .structStmt tok _ _ rb =>
        some ⟨tok.pos.filename, 0, rb.pos.line, rb.pos.col + 1⟩

end

/-- The byte-slice test `str[len(str)-1:] != ";"` of BlockStatement.String,
evaluated on a non-empty string: the last byte of a UTF-8 string is the
byte of `;` exactly when its last character is `;`. -/
def endsWithSemicolon (t : String) : Bool := t.back = Char.ofNat 59

mutual

/-- String() of an expression node, fuelled (`none` = the Go method
would panic — a nil child dereference or the BlockStatement slice on an
empty string — or fuel ran out). Identifier, NumberLiteral,
BooleanLiteral, NilLiteral, PrefixExpression and InfixExpression mirror
ast.go of the source drop exactly; the variants not declared under the
drop use the same child-concatenation style (spec §3: a canonical,
syntactically valid re-rendering), none of which any theorem inspects. -/
def exprStr : Nat → Expr → Option String
  | 0, _ => none
  | f+1, e =>
    match e with
    | .identifier _ v => some v
    | .numberLit tok _ => some tok.literal
    | .stringLit tok _ => some tok.literal
    | .regexLit tok _ => some tok.literal
    | .booleanLit tok _ => some tok.literal
    | .nilLit tok => some tok.literal
    | .arrayLit _ ms => do
        let parts ← exprOptListStr f (ms.getD [])
        pure ("[" ++ String.intercalate ", " parts ++ "]")
    | .hashLit _ pairs => do
        let parts ← hashPairsStr f pairs
        pure ("\x7b" ++ String.intercalate ", " parts ++ "\x7d")
    | .tupleLit _ ms => do
        let parts ← exprOptListStr f ms
        pure ("(" ++ String.intercalate ", " parts ++ ")")
    | .functionLit _ name params body => do
        let ps ← exprListStr f (params.getD [])
        let b ← stmtStr f body
        pure ("fn " ++ name ++ "(" ++ String.intercalate ", " ps ++ ") \x7b " ++ b ++ " \x7d")
    | .prefixExpr _ op r => do
        let rs ← exprOptStr f r
        pure ("(" ++ op ++ rs ++ ")")
    | .infixExpr _ op l r => do
        let ls ← exprOptStr f l
        let rs ← exprOptStr f r
        pure ("(" ++ ls ++ " " ++ op ++ " " ++ rs ++ ")")
    | .postfixExpr _ l op => do
        let ls ← exprOptStr f l
        pure ("(" ++ ls ++ op ++ ")")
    | .callExpr _ fe args => do
        let fs ← exprOptStr f fe
        let as' ← exprOptListStr f (args.getD [])
        pure (fs ++ "(" ++ String.intercalate ", " as' ++ ")")
    | .indexExpr _ l idx => do
        let ls ← exprOptStr f l
        let is' ← exprOptStr f idx
        pure (ls ++ "[" ++ is' ++ "]")
    | .methodCallExpr _ obj c => do
        let os ← exprOptStr f obj
        let cs ← exprOptStr f c
        pure (os ++ "." ++ cs)
    | .assignExpr _ n v => do
        let ns ← exprOptStr f n
        let vs ← exprOptStr f v
        pure (ns ++ " = " ++ vs)
    | .ifExpr _ conds alt => do
        let cs ← ifCondListStr f (conds.getD [])
        let base := "if " ++ String.intercalate " else if " cs
        match alt with
        | none => pure base
        | some a => do
            let as' ← stmtStr f a
            pure (base ++ " else \x7b " ++ as' ++ " \x7d")
    | .switchExpr _ subj cases _ => do
        let ss ← exprStr f subj
        let cs ← caseListStr f cases
        pure ("switch " ++ ss ++ " \x7b " ++ String.intercalate " " cs ++ " \x7d")
    | .breakExpr tok => some tok.literal
    | .continueExpr tok => some tok.literal
    | .fallthroughExpr tok => some tok.literal
    | .doLoop _ b => do
        let bs ← stmtStr f b
        pure ("do \x7b " ++ bs ++ " \x7d")
    | .whileLoop _ c b => do
        let cs ← exprOptStr f c
        let bs ← stmtStr f b
        pure ("while " ++ cs ++ " \x7b " ++ bs ++ " \x7d")
    | .forEverLoop _ b => do
        let bs ← stmtStr f b
        pure ("for \x7b " ++ bs ++ " \x7d")
    | .cForLoop _ i c u b => do
        let is' ← exprOptBlankStr f i
        let cs ← exprOptBlankStr f c
        let us ← exprOptBlankStr f u
        let bs ← stmtStr f b
        pure ("for (" ++ is' ++ ";" ++ cs ++ ";" ++ us ++ ") \x7b " ++ bs ++ " \x7d")
    | .forEachArrayLoop _ v x b => do
        let xs ← exprOptStr f x
        let bs ← stmtStr f b
        pure ("for " ++ v ++ " in " ++ xs ++ " \x7b " ++ bs ++ " \x7d")
    | .forEachMapLoop _ k v x b => do
        let xs ← exprOptStr f x
        let bs ← stmtStr f b
        pure ("for " ++ k ++ ", " ++ v ++ " in " ++ xs ++ " \x7b " ++ bs ++ " \x7d")

/-- String() called through a nilable child: Go panics on a nil
interface value, modelled as `none`. -/
def exprOptStr : Nat → Option Expr → Option String
  | 0, _ => none
  | _+1, none => none
  | f+1, some e => exprStr f e

/-- Rendering of an optional clause that prints as empty when absent
(the C-style for loop's init/cond/update). -/
def exprOptBlankStr : Nat → Option Expr → Option String
  | 0, _ => none
  | _+1, none => some ""
  | f+1, some e => exprStr f e

def exprListStr : Nat → List Expr → Option (List String)
  | 0, _ => none
  | _+1, [] => some []
  | f+1, e :: rest => do
      let s ← exprStr f e
      let tail ← exprListStr f rest
      pure (s :: tail)

def exprOptListStr : Nat → List (Option Expr) → Option (List String)
  | 0, _ => none
  | _+1, [] => some []
  | f+1, e :: rest => do
      let s ← exprOptStr f e
      let tail ← exprOptListStr f rest
      pure (s :: tail)

def hashPairsStr : Nat → List (Option Expr × Option Expr) → Option (List String)
  | 0, _ => none
  | _+1, [] => some []
  | f+1, (k, v) :: rest => do
      let ks ← exprOptStr f k
      let vs ← exprOptStr f v
      let tail ← hashPairsStr f rest
      pure ((ks ++ ":" ++ vs) :: tail)

def ifCondListStr : Nat → List (Option IfCond) → Option (List String)
  | 0, _ => none
  | _+1, [] => some []
  | _+1, none :: _ => none
  | f+1, some (.mk _ c b) :: rest => do
      let cs ← exprOptStr f c
      let bs ← stmtStr f b
      let tail ← ifCondListStr f rest
      pure ((cs ++ " \x7b " ++ bs ++ " \x7d") :: tail)

def caseListStr : Nat → List Case → Option (List String)
  | 0, _ => none
  | _+1, [] => some []
  | f+1, .mk _ exprs isDefault b _ :: rest => do
      let es ← exprOptListStr f exprs
      let bs ← stmtStr f b
      let hd := if isDefault then "default" else "case " ++ String.intercalate ", " es
      let tail ← caseListStr f rest
      pure ((hd ++ " \x7b " ++ bs ++ " \x7d") :: tail)

/-- String() of a statement node. The block and expression-statement
cases mirror ast.go of the source drop exactly (an ExpressionStatement
with an absent Expression renders as the empty string); letStmt and
returnStmt follow the source-drop shape extended pointwise to the
plural lists; import/struct are modelled renderings. -/
def stmtStr : Nat → Stmt → Option String
  | 0, _ => none
  | f+1, s =>
    match s with
    | .letStmt tok names values => do
        let ns ← exprListStr f names
        let vs ← exprOptGuardListStr f values
        pure (tok.literal ++ " " ++ String.intercalate ", " ns ++ " = " ++
              String.intercalate ", " vs ++ ";")
    | .returnStmt tok values => do
        let vs ← exprOptGuardListStr f values
        pure (tok.literal ++ " " ++ String.intercalate ", " vs ++ "; ")
    | .blockStmt _ stmts _ => blockBodyStr f stmts
    | .exprStmt _ e =>
        match e with
        | none => some ""
        | some e' => exprStr f e'
    | .importStmt _ path _ => some ("import " ++ path)
    | .structStmt _ name b _ => do
        let bs ← stmtStr f b
        pure ("struct " ++ name ++ " \x7b " ++ bs ++ " \x7d")

/-- Rendering of a list whose nil elements print as empty (the
source-drop LetStatement/ReturnStatement guard a nil value with
`if ... != nil` before rendering it). -/
def exprOptGuardListStr : Nat → List (Option Expr) → Option (List String)
  | 0, _ => none
  | _+1, [] => some []
  | f+1, none :: rest => do
      let tail ← exprOptGuardListStr f rest
      pure ("" :: tail)
  | f+1, some e :: rest => do
      let s ← exprStr f e
      let tail ← exprOptGuardListStr f rest
      pure (s :: tail)

/-- The statement loop of BlockStatement.String (ast.go): for each
statement take `str := s.String()`, write it, and append `;` unless the
slice `str[len(str)-1:]` equals `";"` — when `str` is empty that slice
expression is evaluated with bounds `[-1:]`, an out-of-range access
(a Go runtime panic), modelled as `none`. -/
def blockBodyStr : Nat → List Stmt → Option String
  | 0, _ => none
  | _+1, [] => some ""
  | f+1, s :: rest => do
      let str ← stmtStr f s
      if str = "" then
        none
      else do
        let tail ← blockBodyStr f rest
        pure (str ++ (if endsWithSemicolon str then "" else ";") ++ tail)

end

/-- The end-of-stream token. Modelled from the spec's token-source
contract: a well-formed stream terminates with the end-of-stream token
type, which the lexer keeps yielding once input is exhausted; the Go
zero Token value also has type TOKEN_EOF (= 0). -/
def eofTok : Tok := ⟨⟨"", 0, 0, 0⟩, .EOF, ""⟩

/-- Parser state (struct Parser): current/peek tokens with the not yet
pulled remainder of the token stream in place of the lexer, the two
diagnostic lists, and the two nesting counters. `fs` models the
file system of imports (spec §6: import resolution reads and tokenizes
an external file; here a map from the slash-joined import path to that
file's token stream). `panicked` marks a state on which the Go program
would have raised a runtime panic, and `fuelOut` a run that exhausted
its fuel; both stay false on every run a theorem inspects. -/
structure PState where
  rest : List Tok
  curToken : Tok
  peekToken : Tok
  errors : List String
  errorLines : List String
  loopDepth : Int
  fallthroughDepth : Int
  fs : List (String × List Tok)
  panicked : Bool
  fuelOut : Bool
deriving Repr

/-- nextToken (parser): shift peek into cur and pull the next token. -/
def nextTok (s : PState) : PState :=
  { s with
    curToken := s.peekToken
    peekToken := s.rest.headD eofTok
    rest := s.rest.tail }

/-- NewParser: zero-valued cur/peek tokens, then two nextToken calls. -/
def newParser (fs : List (String × List Tok)) (toks : List Tok) : PState :=
  nextTok (nextTok ⟨toks, eofTok, eofTok, [], [], 0, 0, fs, false, false⟩)

def curTokenIs (t : TokenType) (s : PState) : Bool := s.curToken.type = t

def peekTokenIs (t : TokenType) (s : PState) : Bool := s.peekToken.type = t

/-- Append one diagnostic (the paired p.errors / p.errorLines appends). -/
def addError (msg line : String) (s : PState) : PState :=
  { s with errors := s.errors ++ [msg], errorLines := s.errorLines ++ [line] }

def markPanic (s : PState) : PState := { s with panicked := true }

def markFuelOut (s : PState) : PState := { s with fuelOut := true }

/-- peekPrecedence: the precedences map with default LOWEST. -/
def peekPrecedence (s : PState) : Int :=
  (precedenceOf s.peekToken.type).getD precLowest

/-- curPrecedence: the precedences map with default LOWEST. -/
def curPrecedence (s : PState) : Int :=
  (precedenceOf s.curToken.type).getD precLowest

/-- peekError: the expected-token diagnostic; its position is the
current token's position with the column advanced by the rune count of
the current literal. -/
def peekError (t : TokenType) (s : PState) : PState :=
  let newPos : Position :=
    { s.curToken.pos with col := s.curToken.pos.col + (strRuneCount s.curToken.literal : Int) }
  addError
    ("Syntax Error:" ++ newPos.str ++ "- expected next token to be " ++ t.str ++
      ", got " ++ s.peekToken.type.str ++ " instead")
    s.curToken.pos.sline s

/-- expectPeek: advance past an expected peek token or record peekError. -/
def expectPeek (t : TokenType) (s : PState) : Bool × PState :=
  if peekTokenIs t s then (true, nextTok s) else (false, peekError t s)

/-- noPrefixParseFnError: recorded unless the offending type is EOF. -/
def noPrefixParseFnError (s : PState) : PState :=
  if s.curToken.type = .EOF then s
  else
    addError
      ("Syntax Error:" ++ s.curToken.pos.str ++ "- no prefix parse functions for \x27" ++
        s.curToken.type.str ++ "\x27 found")
      s.curToken.pos.sline s

/-- Modelled from Go strconv.ParseFloat restricted to the plain decimal
numerals the language's NUMBER tokens take (digits with at most one
dot, optional sign): accepted iff nonempty after the sign, made of
digits and at most one dot, with at least one digit. Exotic forms
ParseFloat also accepts (exponents, hex floats, inf/NaN) are outside
the token shapes any run here uses. -/
def goParseFloatOk (s : String) : Bool :=
  let cs := s.toList
  let cs := match cs with
    | c :: rest => if c = '+' || c = '-' then rest else c :: rest
    | [] => []
  (!cs.isEmpty) && cs.all (fun c => c.isDigit || c = '.') &&
    ((cs.filter (fun c => c = '.')).length ≤ 1) && cs.any Char.isDigit

/-- Go strings.TrimSpace: whitespace stripped from both ends. -/
def goTrimSpace (s : String) : String :=
  String.mk (((s.toList.dropWhile Char.isWhitespace).reverse.dropWhile
    Char.isWhitespace).reverse)

/-- Splitting a character list at slashes. -/
def splitSlash : List Char → List (List Char)
  | [] => [[]]
  | c :: rest =>
    let r := splitSlash rest
    if c = '/' then [] :: r
    else
      match r with
      | [] => [[c]]
      | hd :: tl => (c :: hd) :: tl

/-- Go filepath.Base restricted to the slash-joined relative paths
the import statement builds: the last slash-separated component. -/
def pathBase (path : String) : String :=
  if path = "" then "." else String.mk ((splitSlash path.toList).getLastD path.toList)

/-- The .Expression field access on the *ast.ExpressionStatement value
returned by parseExpressionStatement. -/
def stmtExpression : Stmt → Option Expr
  | .exprStmt _ e => e
  | _ => none

/-- The .Statements field access on the *ast.BlockStatement value
returned by parseBlockStatement. -/
def stmtStatements : Stmt → List Stmt
  | .blockStmt _ ss _ => ss
  | _ => []

/-- parsePrefixIllegalExpression: record the illegal-token diagnostic
and yield no node. -/
def parsePrefixIllegalExpression (s : PState) : Option Expr × PState :=
  (none,
    addError
      ("Syntax Error:" ++ s.curToken.pos.str ++ " - Illegal token found. Literal: \x27" ++
        s.curToken.literal ++ "\x27")
      s.curToken.pos.sline s)

/-- parseInfixIllegalExpression: same diagnostic text; like its Go
original it takes no left operand (a prefix-style signature). -/
def parseInfixIllegalExpression (s : PState) : Option Expr × PState :=
  (none,
    addError
      ("Syntax Error:" ++ s.curToken.pos.str ++ " - Illegal token found. Literal: \x27" ++
        s.curToken.literal ++ "\x27")
      s.curToken.pos.sline s)

/-- parseNumber: a NumberLiteral when the literal float-parses,
otherwise the could-not-parse diagnostic and no node. -/
def parseNumber (s : PState) : Option Expr × PState :=
  if goParseFloatOk s.curToken.literal then
    (some (.numberLit s.curToken s.curToken.literal), s)
  else
    (none,
      addError
        ("Syntax Error:" ++ s.curToken.pos.str ++ " - could not parse \x22" ++
          s.curToken.literal ++ "\x22 as float")
        s.curToken.pos.sline s)

def parseIdentifier (s : PState) : Option Expr × PState :=
  (some (.identifier s.curToken s.curToken.literal), s)

def parseBooleanLiteral (s : PState) : Option Expr × PState :=
  (some (.booleanLit s.curToken (curTokenIs .TRUE s)), s)

def parseStringLiteral (s : PState) : Option Expr × PState :=
  (some (.stringLit s.curToken s.curToken.literal), s)

def parseRegexpLiteral (s : PState) : Option Expr × PState :=
  (some (.regexLit s.curToken s.curToken.literal), s)

def parseNilExpression (s : PState) : Option Expr × PState :=
  (some (.nilLit s.curToken), s)

/-- parsePostfixExpression: wraps the left operand, consuming nothing. -/
def parsePostfixExpression (left : Option Expr) (s : PState) : Option Expr × PState :=
  (some (.postfixExpr s.curToken left s.curToken.literal), s)

/-- parseBreakExpression: outside any loop (loopDepth == 0) record the
outside-of-loop-context diagnostic and yield no node. -/
def parseBreakExpression (s : PState) : Option Expr × PState :=
  if s.loopDepth = 0 then
    (none,
      addError
        ("Syntax Error:" ++ s.curToken.pos.str ++ "- \x27break\x27 outside of loop context")
        s.curToken.pos.sline s)
  else
    (some (.breakExpr s.curToken), s)

/-- parseContinueExpression: mirror of parseBreakExpression. -/
def parseContinueExpression (s : PState) : Option Expr × PState :=
  if s.loopDepth = 0 then
    (none,
      addError
        ("Syntax Error:" ++ s.curToken.pos.str ++ "- \x27continue\x27 outside of loop context")
        s.curToken.pos.sline s)
  else
    (some (.continueExpr s.curToken), s)

/-- parseFallThroughExpression: outside any switch (fallthroughDepth ==
0) record the outside-of-switch-context diagnostic and yield no node. -/
def parseFallThroughExpression (s : PState) : Option Expr × PState :=
  if s.fallthroughDepth = 0 then
    (none,
      addError
        ("Syntax Error:" ++ s.curToken.pos.str ++ "- \x27fallthrough\x27 outside of switch context")
        s.curToken.pos.sline s)
  else
    (some (.fallthroughExpr s.curToken), s)

/-- Result of the left-hand-side loop of parseLetStatement: an error
return carrying the partial statement, the nil return for a `self`
target, or the names list on reaching `=` or `;`. -/
inductive LetNamesRes where
  | errStmt (names : List Expr)
  | errNil
  | ok (names : List Expr)

/-- The left-hand-side loop of parseLetStatement (names before `=`). -/
def parseLetNamesLoop : Nat → Bool → List Expr → PState → LetNamesRes × PState
  | 0, _, acc, s => (.errStmt acc, markFuelOut s)
  | f+1, nextFlag, acc, s =>
    let s := if nextFlag then nextTok s else s
    if !curTokenIs .IDENTIFIER s && s.curToken.literal ≠ "_" then
      (.errStmt acc,
        addError
          ("Syntax Error:" ++ s.curToken.pos.str ++
            "- expected token to be identifier|underscore, got " ++
            s.curToken.type.str ++ " instead.")
          s.curToken.pos.sline s)
    else
      let name : Expr := .identifier s.curToken s.curToken.literal
      if s.curToken.literal = "self" then
        (.errNil,
          addError
            ("Syntax Error:" ++ s.curToken.pos.str ++ "- \x27self\x27 can not be assigned")
            s.curToken.pos.sline s)
      else
        let acc := acc ++ [name]
        let s := nextTok s
        if curTokenIs .ASSIGN s || curTokenIs .SEMICOLON s then (.ok acc, s)
        else if !curTokenIs .COMMA s then
          (.errStmt acc,
            addError
              ("Syntax Error:" ++ s.curToken.pos.str ++
                "- expected token to be comma, got " ++ s.curToken.type.str ++ " instead.")
              s.curToken.pos.sline s)
        else
          parseLetNamesLoop f true acc s

/-- The kinds of misplaced-fallthrough violations the switch post-pass
reports (distinct error kinds per the spec). -/
inductive FtViolation where
  | notLast
  | lastCase
deriving DecidableEq, Repr

/-- The inner statement scan of the switch fallthrough post-pass. -/
def findFallthroughInCase (isLastCase : Bool) : List Stmt → Option (FtViolation × Position)
  | [] => none
  | stmt :: rest =>
    match stmt with
    | .exprStmt _ (some (.fallthroughExpr _)) =>
      if !rest.isEmpty then some (.notLast, stmtPosOf stmt)
      else if isLastCase then some (.lastCase, stmtPosOf stmt)
      else findFallthroughInCase isLastCase rest
    | _ => findFallthroughInCase isLastCase rest

/-- The fallthrough-position validation pass run after a switch's full
case list is parsed (parseSwitchExpression, the loop over
switchExpr.Cases): the first violation found, if any — a fallthrough
expression that is not its block's final statement, or one occurring in
the switch's last case. -/
def findFallthroughViolation : List Case → Option (FtViolation × Position)
  | [] => none
  | .mk _ _ _ blk _ :: rest =>
    match findFallthroughInCase rest.isEmpty (stmtStatements blk) with
    | some v => some v
    | none => findFallthroughViolation rest

mutual

/-- ParseProgram (the top-level recover guard is not modelled; a run on
which Go would panic instead carries the `panicked` flag): loop over
statements until EOF; an import statement goes into the Program's import
map keyed by its ImportPath — only when that path is not already
present — and every other statement is appended in order. -/
def parseProgram : Nat → PState → Prog × PState
  | 0, s => (.mk [] [], markFuelOut s)
  | f+1, s =>
    let (acc, s) := parseProgramLoop f [] [] s
    (.mk acc.1 acc.2, s)

/-- The statement loop of ParseProgram. -/
def parseProgramLoop :
    Nat → List Stmt → List (String × Stmt) → PState →
      (List Stmt × List (String × Stmt)) × PState
  | 0, stmts, imports, s => ((stmts, imports), markFuelOut s)
  | f+1, stmts, imports, s =>
    if curTokenIs .EOF s then ((stmts, imports), s)
    else
      let (st, s) := parseStatement f s
      let acc :=
        match st with
        | none => (stmts, imports)
        | some stmt =>
          match stmt with
          | .importStmt _ path _ =>
            if imports.any (fun kv => kv.1 = path) then (stmts, imports)
            else (stmts, imports ++ [(path, stmt)])
          | _ => (stmts ++ [stmt], imports)
      parseProgramLoop f acc.1 acc.2 (nextTok s)

/-- parseStatement: dispatch on the current token type; an identifier
immediately followed by a comma re-routes into parseLetStatement with a
synthesized let token. -/
def parseStatement : Nat → PState → Option Stmt × PState
  | 0, s => (none, markFuelOut s)
  | f+1, s =>
    match s.curToken.type with
    | .IMPORT =>
      let (st, s) := parseImportStatement f s
      (some st, s)
    | .LET => parseLetStatement f true s
    | .RETURN =>
      let (st, s) := parseReturnStatement f s
      (some st, s)
    | .LBRACE =>
      let (st, s) := parseBlockStatement f s
      (some st, s)
    | .STRUCT => parseStructStatement f s
    | .IDENTIFIER =>
      if peekTokenIs .COMMA s then parseLetStatement f false s
      else
        let (st, s) := parseExpressionStatement f s
        (some st, s)
    | _ =>
      let (st, s) := parseExpressionStatement f s
      (some st, s)

/-- parseImportStatement: collect dot-separated segments, join with
slashes, set ImportPath to the path's base, resolve and parse the file
imported; a resolution error is appended to the importer's
diagnostics and the statement (without a nested program) returned. -/
def parseImportStatement : Nat → PState → Stmt × PState
  | 0, s => (.importStmt eofTok "" none, markFuelOut s)
  | f+1, s =>
    let tok := s.curToken
    let s := nextTok s
    let (paths, s) := parseImportPathLoop f [s.curToken.literal] s
    let path := goTrimSpace (String.intercalate "/" paths)
    let importPath := pathBase path
    let (res, s) := getImportedStatements f path s
    match res with
    | .error e => (.importStmt tok importPath none, addError e s.curToken.pos.sline s)
    | .ok prog =>
      let s := if peekTokenIs .SEMICOLON s then nextTok s else s
      (.importStmt tok importPath (some prog), s)

/-- The dotted-path loop of parseImportStatement. -/
def parseImportPathLoop : Nat → List String → PState → List String × PState
  | 0, acc, s => (acc, markFuelOut s)
  | f+1, acc, s =>
    if peekTokenIs .DOT s then
      let s := nextTok (nextTok s)
      parseImportPathLoop f (acc ++ [s.curToken.literal]) s
    else (acc, s)

/-- getImportedStatements. The file-system side (directory of the file
doing the import, the MAGPIE_ROOT fallback, ReadFile, and lexing) is
external and modelled through `PState.fs` mapping an import path to
that file's token stream; absence on both search paths collapses to
absence in `fs`, and the directory name in the Go error text is
modelled as empty. A found file is parsed by a fresh parser and the
nested parser's diagnostics, if any, are appended to the importer's. -/
def getImportedStatements : Nat → String → PState → Except String Prog × PState
  | 0, _, s => (.error "", markFuelOut s)
  | f+1, importpath, s =>
    match s.fs.find? (fun kv => kv.1 = importpath) with
    | none =>
      (.error
        ("Syntax Error:" ++ s.curToken.pos.str ++ "- no file or directory: " ++
          importpath ++ ".mp, "), s)
    | some kv =>
      let ps := newParser s.fs kv.2
      let (parsed, ps) := parseProgram f ps
      let s :=
        if ps.errors.isEmpty then s
        else { s with errors := s.errors ++ ps.errors, errorLines := s.errorLines ++ ps.errorLines }
      let s := { s with panicked := s.panicked || ps.panicked, fuelOut := s.fuelOut || ps.fuelOut }
      (.ok parsed, s)

/-- parseLetStatement: left-hand names loop, then either the bare
`let x;` form or the comma-separated value expressions. -/
def parseLetStatement : Nat → Bool → PState → Option Stmt × PState
  | 0, _, s => (none, markFuelOut s)
  | f+1, nextFlag, s =>
    let stmtTok : Tok :=
      if !nextFlag then ⟨s.curToken.pos, .LET, "let"⟩ else s.curToken
    let (res, s) := parseLetNamesLoop f nextFlag [] s
    match res with
    | .errNil => (none, s)
    | .errStmt names => (some (.letStmt stmtTok names []), s)
    | .ok names =>
      if curTokenIs .SEMICOLON s then (some (.letStmt stmtTok names []), s)
      else
        let s := nextTok s
        let (values, s) := parseStmtValuesLoop f [] s
        (some (.letStmt stmtTok names values), s)

/-- The comma-separated value loop shared (verbatim in the source) by
parseLetStatement and parseReturnStatement: each value is the
Expression of a parseExpressionStatement call. -/
def parseStmtValuesLoop : Nat → List (Option Expr) → PState → List (Option Expr) × PState
  | 0, acc, s => (acc, markFuelOut s)
  | f+1, acc, s =>
    let (es, s) := parseExpressionStatement f s
    let acc := acc ++ [stmtExpression es]
    if !peekTokenIs .COMMA s then (acc, s)
    else parseStmtValuesLoop f acc (nextTok (nextTok s))

/-- parseReturnStatement: empty value list before `;` or `}`, else the
comma-separated value loop. (The Go struct's singular ReturnValue field
is the head of ReturnValues and is not stored separately.) -/
def parseReturnStatement : Nat → PState → Stmt × PState
  | 0, s => (.returnStmt eofTok [], markFuelOut s)
  | f+1, s =>
    let tok := s.curToken
    if peekTokenIs .SEMICOLON s then (.returnStmt tok [], nextTok s)
    else if peekTokenIs .RBRACE s then (.returnStmt tok [], s)
    else
      let s := nextTok s
      let (values, s) := parseStmtValuesLoop f [] s
      (.returnStmt tok values, s)

/-- parseBlockStatement: statements until `}` (or a peeked EOF), the
closing token recorded as RBraceToken. -/
def parseBlockStatement : Nat → PState → Stmt × PState
  | 0, s => (.blockStmt eofTok [] eofTok, markFuelOut s)
  | f+1, s =>
    let tok := s.curToken
    let s := nextTok s
    let (stmts, s) := parseBlockStmtsLoop f [] s
    (.blockStmt tok stmts s.curToken, s)

/-- The statement loop of parseBlockStatement (nil statements are not
appended; a peeked EOF breaks the loop). -/
def parseBlockStmtsLoop : Nat → List Stmt → PState → List Stmt × PState
  | 0, acc, s => (acc, markFuelOut s)
  | f+1, acc, s =>
    if curTokenIs .RBRACE s then (acc, s)
    else
      let (st, s) := parseStatement f s
      let acc := match st with | some stmt => acc ++ [stmt] | none => acc
      if peekTokenIs .EOF s then (acc, s)
      else parseBlockStmtsLoop f acc (nextTok s)

/-- parseExpressionStatement: an expression at lowest precedence with
an optional trailing semicolon consumed. -/
def parseExpressionStatement : Nat → PState → Stmt × PState
  | 0, s => (.exprStmt eofTok none, markFuelOut s)
  | f+1, s =>
    let tok := s.curToken
    let (e, s) := parseExpression f precLowest s
    let s := if peekTokenIs .SEMICOLON s then nextTok s else s
    (.exprStmt tok e, s)

/-- parseExpression: precedence climbing — look up the prefix strategy
for the current token type (recording the no-prefix-parse-function
error when absent), then fold infix strategies while the upcoming
token's precedence strictly exceeds the minimum binding precedence. -/
def parseExpression : Nat → Int → PState → Option Expr × PState
  | 0, _, s => (none, markFuelOut s)
  | f+1, prec, s =>
    match prefixFnFor s.curToken.type with
    | none => (none, noPrefixParseFnError s)
    | some pfn =>
      let (leftExp, s) := runPrefixFn f pfn s
      parseInfixLoop f prec leftExp s

/-- The infix loop of parseExpression. -/
def parseInfixLoop : Nat → Int → Option Expr → PState → Option Expr × PState
  | 0, _, left, s => (left, markFuelOut s)
  | f+1, prec, left, s =>
    if prec < peekPrecedence s then
      match infixFnFor s.peekToken.type with
      | none => (left, s)
      | some ifn =>
        let s := nextTok s
        let (left', s) := runInfixFn f ifn left s
        parseInfixLoop f prec left' s
    else (left, s)

/-- Indirect call through the prefix dispatch table. -/
def runPrefixFn : Nat → PrefixFnName → PState → Option Expr × PState
  | 0, _, s => (none, markFuelOut s)
  | f+1, pfn, s =>
    match pfn with
    | .prefixIllegal => parsePrefixIllegalExpression s
    | .number => parseNumber s
    | .identifier => parseIdentifier s
    | .stringLit => parseStringLiteral s
    | .functionLit => parseFunctionLiteral f s
    | .booleanLit => parseBooleanLiteral s
    | .arrayLit => parseArrayLiteral f s
    | .hashLit => parseHashLiteral f s
    | .regexpLit => parseRegexpLiteral s
    | .nilLit => parseNilExpression s
    | .prefixExpr => parsePrefixExpression f s
    | .grouped => parseGroupedExpression f s
    | .ifExpr => parseIfExpression f s
    | .switchExpr => parseSwitchExpression f s
    | .fallthroughExpr => parseFallThroughExpression s
    | .doLoop => parseDoLoopExpression f s
    | .whileLoop => parseWhileLoopExpression f s
    | .forLoop => parseForLoopExpression f s
    | .breakExpr => parseBreakExpression s
    | .continueExpr => parseContinueExpression s
    | .infixIllegal => parseInfixIllegalExpression s

/-- Indirect call through the infix dispatch table. -/
def runInfixFn : Nat → InfixFnName → Option Expr → PState → Option Expr × PState
  | 0, _, left, s => (left, markFuelOut s)
  | f+1, ifn, left, s =>
    match ifn with
    | .infixExpr => parseInfixExpression f left s
    | .callExpr => parseCallExpression f left s
    | .indexExpr => parseIndexExpression f left s
    | .postfixExpr => parsePostfixExpression left s
    | .methodCallExpr => parseMethodCallExpression f left s
    | .assignExpr => parseAssignExpression f left s

/-- parseInfixExpression: the right operand is parsed at the operator's
own precedence, except that the exponent operator `**` uses one less
than its own precedence (right-to-left associativity). -/
def parseInfixExpression : Nat → Option Expr → PState → Option Expr × PState
  | 0, left, s => (left, markFuelOut s)
  | f+1, left, s =>
    let tok := s.curToken
    let op := s.curToken.literal
    let prec0 := curPrecedence s
    let prec := if curTokenIs .POWER s then prec0 - 1 else prec0
    let s := nextTok s
    let (r, s) := parseExpression f prec s
    (some (.infixExpr tok op left r), s)

/-- parsePrefixExpression: operand parsed at PREFIX precedence. -/
def parsePrefixExpression : Nat → PState → Option Expr × PState
  | 0, s => (none, markFuelOut s)
  | f+1, s =>
    let tok := s.curToken
    let op := s.curToken.literal
    let s := nextTok s
    let (r, s) := parseExpression f precPrefixOp s
    (some (.prefixExpr tok op r), s)

/-- parseGroupedExpression: an immediately following `)` yields an
empty tuple; an expression followed by `,` is reinterpreted as a tuple
literal; otherwise the closing `)` is required and the inner expression
returned unchanged. -/
def parseGroupedExpression : Nat → PState → Option Expr × PState
  | 0, s => (none, markFuelOut s)
  | f+1, s =>
    let savedToken := s.curToken
    let s := nextTok s
    if savedToken.type = .LPAREN && curTokenIs .RPAREN s then
      (some (.tupleLit savedToken []), s)
    else
      let (exp, s) := parseExpression f precLowest s
      if peekTokenIs .COMMA s then
        let s := nextTok s
        parseTupleExpression f savedToken exp s
      else
        let (ok, s) := expectPeek .RPAREN s
        if ok then (exp, s) else (none, s)

/-- parseTupleExpression: the already-parsed first member plus the
comma-separated rest up to `)`; a trailing comma before `)` still
closes the tuple. -/
def parseTupleExpression : Nat → Tok → Option Expr → PState → Option Expr × PState
  | 0, _, _, s => (none, markFuelOut s)
  | f+1, tok, e, s => parseTupleLoop f tok [e] tok s

/-- The member loop of parseTupleExpression. -/
def parseTupleLoop : Nat → Tok → List (Option Expr) → Tok → PState → Option Expr × PState
  | 0, _, _, _, s => (none, markFuelOut s)
  | f+1, tok, members, oldToken, s =>
    match s.curToken.type with
    | .RPAREN => (some (.tupleLit tok members), s)
    | .COMMA =>
      let s := nextTok s
      if curTokenIs .RPAREN s then (some (.tupleLit tok members), s)
      else
        let (m, s) := parseExpression f precLowest s
        let members := members ++ [m]
        let oldToken := s.curToken
        let s := nextTok s
        parseTupleLoop f tok members oldToken s
    | _ =>
      let oldPos : Position :=
        { oldToken.pos with col := oldToken.pos.col + (strByteLen oldToken.literal : Int) }
      (none,
        addError
          ("Syntax Error:" ++ oldPos.str ++
            "- expected token to be \x27,\x27 or \x27)\x27, got " ++
            s.curToken.type.str ++ " instead")
          oldPos.sline s)

/-- parseArrayLiteral: members up to `]` via parseExpressionList. -/
def parseArrayLiteral : Nat → PState → Option Expr × PState
  | 0, s => (none, markFuelOut s)
  | f+1, s =>
    let tok := s.curToken
    let (ms, s) := parseExpressionList f .RBRACKET s
    (some (.arrayLit tok ms), s)

/-- parseExpressionList: comma-separated expressions up to the end
token; a failed closing expectation yields the nil slice. -/
def parseExpressionList : Nat → TokenType → PState → Option (List (Option Expr)) × PState
  | 0, _, s => (none, markFuelOut s)
  | f+1, endTy, s =>
    if peekTokenIs endTy s then (some [], nextTok s)
    else
      let s := nextTok s
      let (e, s) := parseExpression f precLowest s
      parseExprListLoop f endTy [e] s

/-- The comma loop of parseExpressionList. -/
def parseExprListLoop :
    Nat → TokenType → List (Option Expr) → PState → Option (List (Option Expr)) × PState
  | 0, _, _, s => (none, markFuelOut s)
  | f+1, endTy, acc, s =>
    if peekTokenIs .COMMA s then
      let s := nextTok (nextTok s)
      let (e, s) := parseExpression f precLowest s
      parseExprListLoop f endTy (acc ++ [e]) s
    else
      let (ok, s) := expectPeek endTy s
      if ok then (some acc, s) else (none, s)

/-- parseHashLiteral: key/value pairs up to `}` (the Go map keyed by
expression pointers is modelled as the append-ordered pair list). -/
def parseHashLiteral : Nat → PState → Option Expr × PState
  | 0, s => (none, markFuelOut s)
  | f+1, s => parseHashLoop f s.curToken [] s

/-- The pair loop of parseHashLiteral. -/
def parseHashLoop :
    Nat → Tok → List (Option Expr × Option Expr) → PState → Option Expr × PState
  | 0, _, _, s => (none, markFuelOut s)
  | f+1, tok, pairs, s =>
    if !peekTokenIs .RBRACE s then
      let s := nextTok s
      let (k, s) := parseExpression f precLowest s
      let (ok, s) := expectPeek .COLON s
      if !ok then (none, s)
      else
        let s := nextTok s
        let (v, s) := parseExpression f precLowest s
        let pairs := pairs ++ [(k, v)]
        if !peekTokenIs .RBRACE s then
          let (ok2, s) := expectPeek .COMMA s
          if !ok2 then (none, s) else parseHashLoop f tok pairs s
        else parseHashLoop f tok pairs s
    else
      let (ok, s) := expectPeek .RBRACE s
      if ok then (some (.hashLit tok pairs), s) else (none, s)

/-- parseFunctionLiteral: optional name, parenthesized parameters,
brace-delimited body. -/
def parseFunctionLiteral : Nat → PState → Option Expr × PState
  | 0, s => (none, markFuelOut s)
  | f+1, s =>
    let tok := s.curToken
    let (name, s) :=
      if peekTokenIs .IDENTIFIER s then
        let s := nextTok s
        (s.curToken.literal, s)
      else ("", s)
    let (ok, s) := expectPeek .LPAREN s
    if !ok then (none, s)
    else
      let (params, s) := parseFunctionParameters f s
      let (ok2, s) := expectPeek .LBRACE s
      if !ok2 then (none, s)
      else
        let (body, s) := parseBlockStatement f s
        (some (.functionLit tok name params body), s)

/-- parseFunctionParameters: identifiers up to `)`. -/
def parseFunctionParameters : Nat → PState → Option (List Expr) × PState
  | 0, s => (none, markFuelOut s)
  | f+1, s =>
    if peekTokenIs .RPAREN s then (some [], nextTok s)
    else
      let s := nextTok s
      parseParamsLoop f [.identifier s.curToken s.curToken.literal] s

/-- The comma loop of parseFunctionParameters. -/
def parseParamsLoop : Nat → List Expr → PState → Option (List Expr) × PState
  | 0, _, s => (none, markFuelOut s)
  | f+1, acc, s =>
    if peekTokenIs .COMMA s then
      let s := nextTok (nextTok s)
      parseParamsLoop f (acc ++ [.identifier s.curToken s.curToken.literal]) s
    else
      let (ok, s) := expectPeek .RPAREN s
      if ok then (some acc, s) else (none, s)

/-- parseCallExpression: arguments up to `)`. -/
def parseCallExpression : Nat → Option Expr → PState → Option Expr × PState
  | 0, _, s => (none, markFuelOut s)
  | f+1, function, s =>
    let tok := s.curToken
    let (args, s) := parseExpressionList f .RPAREN s
    (some (.callExpr tok function args), s)

/-- parseIndexExpression: the index at lowest precedence up to `]`. -/
def parseIndexExpression : Nat → Option Expr → PState → Option Expr × PState
  | 0, _, s => (none, markFuelOut s)
  | f+1, left, s =>
    let tok := s.curToken
    let s := nextTok s
    let (idx, s) := parseExpression f precLowest s
    let (ok, s) := expectPeek .RBRACKET s
    if ok then (some (.indexExpr tok left idx), s) else (none, s)

/-- parseMethodCallExpression: after `.`, either a call on the parsed
identifier or a property-style access parsed at CALL precedence (so a
following binary operator is not swallowed into the property). -/
def parseMethodCallExpression : Nat → Option Expr → PState → Option Expr × PState
  | 0, _, s => (none, markFuelOut s)
  | f+1, obj, s =>
    let tok := s.curToken
    let s := nextTok s
    let (name, s) := parseIdentifier s
    if !peekTokenIs .LPAREN s then
      let (callE, s) := parseExpression f precCall s
      (some (.methodCallExpr tok obj callE), s)
    else
      let s := nextTok s
      let (callE, s) := parseCallExpression f name s
      (some (.methodCallExpr tok obj callE), s)

/-- parseAssignExpression: rejects the receiver-reference identifier
`self` as a target (Go calls name.String(), which panics when the
incoming left operand is the nil interface — modelled by `markPanic`),
then parses the value at lowest precedence. -/
def parseAssignExpression : Nat → Option Expr → PState → Option Expr × PState
  | 0, _, s => (none, markFuelOut s)
  | f+1, name, s =>
    match name with
    | none => (none, markPanic s)
    | some n =>
      match exprStr f n with
      | none => (none, markPanic s)
      | some rendered =>
        if rendered = "self" then
          (none,
            addError
              ("Syntax Error:" ++ s.curToken.pos.str ++ "- \x27self\x27 can not be assigned")
              s.curToken.pos.sline s)
        else
          let tok := s.curToken
          let s := nextTok s
          let (v, s) := parseExpression f precLowest s
          (some (.assignExpr tok name v), s)

/-- parseIfExpression: the condition/block chain with optional final
else block. -/
def parseIfExpression : Nat → PState → Option Expr × PState
  | 0, s => (none, markFuelOut s)
  | f+1, s =>
    let tok := s.curToken
    let (condsAlt, s) := parseConditionalExpressions f s
    (some (.ifExpr tok condsAlt.1 condsAlt.2), s)

/-- parseConditionalExpressions: the first condition pair, then the
else chain. -/
def parseConditionalExpressions :
    Nat → PState → (Option (List (Option IfCond)) × Option Stmt) × PState
  | 0, s => ((none, none), markFuelOut s)
  | f+1, s =>
    let (c0, s) := parseConditionalExpression f s
    parseElseChainLoop f [c0] s

/-- The else chain of parseConditionalExpressions: `else if` appends
another pair; `else {` parses the terminal alternative block; any other
else continuation is the must-be-followed-by-a-brace error (nil chain). -/
def parseElseChainLoop :
    Nat → List (Option IfCond) → PState →
      (Option (List (Option IfCond)) × Option Stmt) × PState
  | 0, acc, s => ((some acc, none), markFuelOut s)
  | f+1, acc, s =>
    if peekTokenIs .ELSE s then
      let s := nextTok s
      if !peekTokenIs .IF s then
        if peekTokenIs .LBRACE s then
          let s := nextTok s
          let (blk, s) := parseBlockStatement f s
          ((some acc, some blk), s)
        else
          ((none, none),
            addError
              ("Syntax Error:" ++ s.curToken.pos.str ++
                "- \x27else\x27 part must be followed by a \x27\x7b\x27.")
              s.curToken.pos.sline s)
      else
        let s := nextTok s
        let (c, s) := parseConditionalExpression f s
        parseElseChainLoop f (acc ++ [c]) s
    else ((some acc, none), s)

/-- parseConditionalExpression: one condition (via
parseExpressionStatement) plus its brace-delimited block. -/
def parseConditionalExpression : Nat → PState → Option IfCond × PState
  | 0, s => (none, markFuelOut s)
  | f+1, s =>
    let tok := s.curToken
    let s := nextTok s
    let (condStmt, s) := parseExpressionStatement f s
    let cond := stmtExpression condStmt
    if !peekTokenIs .LBRACE s then
      (none,
        addError
          ("Syntax Error:" ++ s.curToken.pos.str ++
            "- \x27if\x27 expression must be followed by a \x27\x7b\x27.")
          s.curToken.pos.sline s)
    else
      let s := nextTok s
      let (body, s) := parseBlockStatement f s
      (some (.mk tok cond body), s)

/-- parseDoLoopExpression: loopDepth is incremented on entry and
decremented before the (only) return. -/
def parseDoLoopExpression : Nat → PState → Option Expr × PState
  | 0, s => (none, markFuelOut s)
  | f+1, s =>
    let s := { s with loopDepth := s.loopDepth + 1 }
    let tok := s.curToken
    let (_, s) := expectPeek .LBRACE s
    let (blk, s) := parseBlockStatement f s
    let s := { s with loopDepth := s.loopDepth - 1 }
    (some (.doLoop tok blk), s)

/-- parseWhileLoopExpression: loopDepth is incremented on entry and
decremented on the success return; the missing-brace error path
returns nil without the decrement. -/
def parseWhileLoopExpression : Nat → PState → Option Expr × PState
  | 0, s => (none, markFuelOut s)
  | f+1, s =>
    let s := { s with loopDepth := s.loopDepth + 1 }
    let tok := s.curToken
    let s := nextTok s
    let (condStmt, s) := parseExpressionStatement f s
    let cond := stmtExpression condStmt
    let s := if peekTokenIs .RPAREN s then nextTok s else s
    if peekTokenIs .LBRACE s then
      let s := nextTok s
      let (blk, s) := parseBlockStatement f s
      let s := { s with loopDepth := s.loopDepth - 1 }
      (some (.whileLoop tok cond blk), s)
    else
      (none,
        addError
          ("Syntax Error:" ++ s.curToken.pos.str ++
            "- for loop must be followed by a \x27\x7b\x27")
          s.curToken.pos.sline s)

/-- parseForLoopExpression: one keyword dispatching four grammars;
loopDepth is incremented on entry and decremented on each form's
return, but the invalid-loop-variable error path returns nil without
the decrement. -/
def parseForLoopExpression : Nat → PState → Option Expr × PState
  | 0, s => (none, markFuelOut s)
  | f+1, s =>
    let s := { s with loopDepth := s.loopDepth + 1 }
    let curTok := s.curToken
    if peekTokenIs .LBRACE s then
      let (r, s) := parseForEverLoopExpression f curTok s
      (r, { s with loopDepth := s.loopDepth - 1 })
    else if peekTokenIs .LPAREN s then
      let (r, s) := parseCForLoopExpression f curTok s
      (r, { s with loopDepth := s.loopDepth - 1 })
    else
      let s := nextTok s
      if s.curToken.literal = "_" then
        let (r, s) := parseForEachMapExpression f curTok s.curToken.literal s
        (r, { s with loopDepth := s.loopDepth - 1 })
      else if curTokenIs .IDENTIFIER s then
        if peekTokenIs .COMMA s then
          let (r, s) := parseForEachMapExpression f curTok s.curToken.literal s
          (r, { s with loopDepth := s.loopDepth - 1 })
        else
          let (r, s) := parseForEachArrayExpression f curTok s.curToken.literal s
          (r, { s with loopDepth := s.loopDepth - 1 })
      else
        (none,
          addError
            ("Syntax Error:" ++ s.curToken.pos.str ++
              "- for loop must be followed by an underscore or identifier. got " ++
              s.curToken.literal)
            s.curToken.pos.sline s)

/-- parseCForLoopExpression: the three optional clauses between the
parentheses; all three absent degenerates to the infinite-loop node. -/
def parseCForLoopExpression : Nat → Tok → PState → Option Expr × PState
  | 0, _, s => (none, markFuelOut s)
  | f+1, curTok, s =>
    let (ok, s) := expectPeek .LPAREN s
    if !ok then (none, s)
    else
      let s := nextTok s
      let (init, s) :=
        if !curTokenIs .SEMICOLON s then
          let (e, s) := parseExpression f precLowest s
          (e, nextTok s)
        else (none, s)
      let s := nextTok s
      let (cond, s) :=
        if !curTokenIs .SEMICOLON s then
          let (e, s) := parseExpression f precLowest s
          (e, nextTok s)
        else (none, s)
      let s := nextTok s
      let (update, s) :=
        if !curTokenIs .SEMICOLON s then parseExpression f precLowest s
        else (none, s)
      let (ok2, s) := expectPeek .RPAREN s
      if !ok2 then (none, s)
      else if !peekTokenIs .LBRACE s then
        (none,
          addError
            ("Syntax Error:" ++ s.curToken.pos.str ++
              "- for loop must be followed by a \x27\x7b\x27.")
            s.curToken.pos.sline s)
      else
        let s := nextTok s
        let (blk, s) := parseBlockStatement f s
        match init, cond, update with
        | none, none, none => (some (.forEverLoop curTok blk), s)
        | _, _, _ => (some (.cForLoop curTok init cond update blk), s)

/-- parseForEachArrayExpression: `for item in array { block }`. -/
def parseForEachArrayExpression : Nat → Tok → String → PState → Option Expr × PState
  | 0, _, _, s => (none, markFuelOut s)
  | f+1, curTok, varName, s =>
    let (ok, s) := expectPeek .IN s
    if !ok then (none, s)
    else
      let s := nextTok s
      let (value, s) := parseExpression f precLowest s
      if peekTokenIs .LBRACE s then
        let s := nextTok s
        let (blk, s) := parseBlockStatement f s
        (some (.forEachArrayLoop curTok varName value blk), s)
      else
        (none,
          addError
            ("Syntax Error:" ++ s.curToken.pos.str ++
              "- for loop must be followed by a \x27\x7b\x27 ")
            s.curToken.pos.sline s)

/-- parseForEachMapExpression: `for key, value in hash { block }`;
either name may be the discard identifier but not both. -/
def parseForEachMapExpression : Nat → Tok → String → PState → Option Expr × PState
  | 0, _, _, s => (none, markFuelOut s)
  | f+1, curTok, key, s =>
    let (ok, s) := expectPeek .COMMA s
    if !ok then (none, s)
    else
      let s := nextTok s
      if s.curToken.literal ≠ "_" && !curTokenIs .IDENTIFIER s then
        (none,
          addError
            ("Syntax Error:" ++ s.curToken.pos.str ++
              "- for loop must be followed by an identifier. got " ++ s.curToken.literal)
            s.curToken.pos.sline s)
      else
        let value := s.curToken.literal
        if key = "_" && value = "_" then
          (none,
            addError
              ("Syntax Error:" ++ s.curToken.pos.str ++
                "- foreach map\x27s key & map are both \x27_\x27")
              s.curToken.pos.sline s)
        else
          let (ok2, s) := expectPeek .IN s
          if !ok2 then (none, s)
          else
            let s := nextTok s
            let (x, s) := parseExpression f precLowest s
            if peekTokenIs .LBRACE s then
              let s := nextTok s
              let (blk, s) := parseBlockStatement f s
              (some (.forEachMapLoop curTok key value x blk), s)
            else
              (none,
                addError
                  ("Syntax Error:" ++ s.curToken.pos.str ++
                    "- for loop must be followed by a \x27\x7b\x27.")
                  s.curToken.pos.sline s)

/-- parseForEverLoopExpression: `for { block }`. -/
def parseForEverLoopExpression : Nat → Tok → PState → Option Expr × PState
  | 0, _, s => (none, markFuelOut s)
  | f+1, curTok, s =>
    let (_, s) := expectPeek .LBRACE s
    let (blk, s) := parseBlockStatement f s
    (some (.forEverLoop curTok blk), s)

/-- parseSwitchExpression: subject, brace-delimited case list, then the
post-pass validating fallthrough positions. fallthroughDepth is
incremented on entry and decremented only on the success return. -/
def parseSwitchExpression : Nat → PState → Option Expr × PState
  | 0, s => (none, markFuelOut s)
  | f+1, s =>
    let s := { s with fallthroughDepth := s.fallthroughDepth + 1 }
    let tok := s.curToken
    let s := nextTok s
    let (subjOpt, s) := parseExpression f precLowest s
    match subjOpt with
    | none => (none, s)
    | some subj =>
      let (ok, s) := expectPeek .LBRACE s
      if !ok then (none, s)
      else
        let s := nextTok s
        let (casesOpt, s) := parseSwitchCasesLoop f tok 0 eofTok [] s
        match casesOpt with
        | none => (none, s)
        | some cases =>
          match findFallthroughViolation cases with
          | some (.notLast, pos) =>
            (none,
              addError
                ("Syntax Error:" ++ toString pos.line ++
                  "- fallthrough can be used only as a last statement inside case clause")
                s.curToken.pos.sline s)
          | some (.lastCase, pos) =>
            (none,
              addError
                ("Syntax Error:" ++ toString pos.line ++
                  "- cannot fallthrough final case in switch")
                pos.sline s)
          | none =>
            let s := { s with fallthroughDepth := s.fallthroughDepth - 1 }
            (some (.switchExpr tok subj cases s.curToken), s)

/-- The case-list loop of parseSwitchExpression, carrying the running
default count and the token of the offending second default. -/
def parseSwitchCasesLoop :
    Nat → Tok → Int → Tok → List Case → PState → Option (List Case) × PState
  | 0, _, _, _, _, s => (none, markFuelOut s)
  | f+1, switchTok, defaultCnt, defaultTok, acc, s =>
    if curTokenIs .RBRACE s then (some acc, s)
    else if curTokenIs .EOF s then
      (none,
        addError
          ("Syntax Error:" ++ s.curToken.pos.str ++ "- unterminated switch statement")
          s.curToken.pos.sline s)
    else if !curTokenIs .CASE s && !curTokenIs .DEFAULT s then
      (none,
        addError
          ("Syntax Error:" ++ s.curToken.pos.str ++
            "- expected \x27case\x27 or \x27default\x27. got " ++ s.curToken.type.str ++
            " instead")
          s.curToken.pos.sline s)
    else
      let caseTok := s.curToken
      let (exprs, isDefault, defaultCnt, defaultTok, s) :=
        if curTokenIs .CASE s then
          let s := nextTok s
          let (e, s) := parseExpression f precLowest s
          let (exprs, s) := parseCaseExprsLoop f [e] s
          (exprs, false, defaultCnt, defaultTok, s)
        else
          let defaultCnt := defaultCnt + 1
          let defaultTok := if defaultCnt > 1 then s.curToken else defaultTok
          ([], true, defaultCnt, defaultTok, s)
      if defaultCnt > 1 then
        (none,
          addError
            ("Syntax Error:" ++ defaultTok.pos.str ++
              "- more than one default are not allowed")
            switchTok.pos.sline s)
      else
        let (ok, s) := expectPeek .LBRACE s
        if !ok then (none, s)
        else
          let (blk, s) := parseBlockStatement f s
          if !curTokenIs .RBRACE s then
            (none,
              addError
                ("Syntax Error:" ++ s.curToken.pos.str ++
                  "- expected token to be \x27\x7d\x27, got " ++ s.curToken.type.str ++
                  " instead")
                s.curToken.pos.sline s)
          else
            let rb := s.curToken
            let s := nextTok s
            parseSwitchCasesLoop f switchTok defaultCnt defaultTok
              (acc ++ [.mk caseTok exprs isDefault blk rb]) s

/-- The comma loop over one case's match expressions. -/
def parseCaseExprsLoop :
    Nat → List (Option Expr) → PState → List (Option Expr) × PState
  | 0, acc, s => (acc, markFuelOut s)
  | f+1, acc, s =>
    if peekTokenIs .COMMA s then
      let s := nextTok (nextTok s)
      let (e, s) := parseExpression f precLowest s
      parseCaseExprsLoop f (acc ++ [e]) s
    else (acc, s)

/-- parseStructStatement: name then brace-delimited body block. -/
def parseStructStatement : Nat → PState → Option Stmt × PState
  | 0, s => (none, markFuelOut s)
  | f+1, s =>
    let tok := s.curToken
    let s := nextTok s
    let name := s.curToken.literal
    let (ok, s) := expectPeek .LBRACE s
    if !ok then (none, s)
    else
      let (blk, s) := parseBlockStatement f s
      (some (.structStmt tok name blk s.curToken), s)

end

/-!
Concrete inputs for the claim theorems. Token streams are written as
the external lexer would deliver them (line 1 unless noted, columns as
in the rendered source text); the parser appends the end-of-stream
token itself via `nextTok`.
-/

/-- Token on line 1 at the given column. -/
def tkn (ty : TokenType) (lit : String) (col : Int) : Tok :=
  ⟨⟨"", 0, 1, col⟩, ty, lit⟩

/-- Token with an explicit line and column. -/
def tknL (line : Int) (ty : TokenType) (lit : String) (col : Int) : Tok :=
  ⟨⟨"", 0, line, col⟩, ty, lit⟩

/-- String() rendering of the first parsed statement's expression. -/
def renderFirst (toks : List Tok) : Option String :=
  exprOptStr 99
    (stmtExpression
      ((parseProgram 99 (newParser [] toks)).1.statements.headD (.exprStmt eofTok none)))

/-- A NIL token whose literal contains a multi-byte character (rune
count 3, byte length 4), separating the two length notions. -/
def nilCounterTok : Tok := ⟨⟨"", 0, 1, 5⟩, .NIL, "níl"⟩

/-- Source `while 1` with no loop body: drives
parseWhileLoopExpression into its missing-brace error return. -/
def c2WhileErrToks : List Tok := [tkn .WHILE "while" 1, tkn .NUMBER "1" 7]

/-- Source `for 123`: drives parseForLoopExpression into its
invalid-loop-variable error return. -/
def c2ForErrToks : List Tok := [tkn .FOR "for" 1, tkn .NUMBER "123" 5]

/-- Source `do { }`. -/
def c2DoToks : List Tok := [tkn .DO "do" 1, tkn .LBRACE "\x7b" 4, tkn .RBRACE "\x7d" 6]

/-- Source `do { break }`. -/
def c2DoBreakToks : List Tok :=
  [tkn .DO "do" 1, tkn .LBRACE "\x7b" 4, tkn .BREAK "break" 6, tkn .RBRACE "\x7d" 12]

/-- Source `while 1 { }`. -/
def c2WhileOkToks : List Tok :=
  [tkn .WHILE "while" 1, tkn .NUMBER "1" 7, tkn .LBRACE "\x7b" 9, tkn .RBRACE "\x7d" 11]

/-- Source `while 1 { break }`. -/
def c2WhileBreakToks : List Tok :=
  [tkn .WHILE "while" 1, tkn .NUMBER "1" 7, tkn .LBRACE "\x7b" 9,
   tkn .BREAK "break" 11, tkn .RBRACE "\x7d" 17]

/-- Source `for { }`. -/
def c2ForEverToks : List Tok := [tkn .FOR "for" 1, tkn .LBRACE "\x7b" 5, tkn .RBRACE "\x7d" 7]

/-- Source `for (;;;) { }`. -/
def c2CForToks : List Tok :=
  [tkn .FOR "for" 1, tkn .LPAREN "(" 5, tkn .SEMICOLON ";" 6, tkn .SEMICOLON ";" 7,
   tkn .SEMICOLON ";" 8, tkn .RPAREN ")" 9, tkn .LBRACE "\x7b" 11, tkn .RBRACE "\x7d" 13]

/-- Source `for x in y { }`. -/
def c2ForEachArrToks : List Tok :=
  [tkn .FOR "for" 1, tkn .IDENTIFIER "x" 5, tkn .IN "in" 7, tkn .IDENTIFIER "y" 10,
   tkn .LBRACE "\x7b" 12, tkn .RBRACE "\x7d" 14]

/-- Source `for k, v in m { }`. -/
def c2ForEachMapToks : List Tok :=
  [tkn .FOR "for" 1, tkn .IDENTIFIER "k" 5, tkn .COMMA "," 6, tkn .IDENTIFIER "v" 8,
   tkn .IN "in" 10, tkn .IDENTIFIER "m" 13, tkn .LBRACE "\x7b" 15, tkn .RBRACE "\x7d" 17]

/-- Source `()`. -/
def c3EmptyToks : List Tok := [tkn .LPAREN "(" 1, tkn .RPAREN ")" 2]

/-- Source `(1)`. -/
def c3ScalarToks : List Tok := [tkn .LPAREN "(" 1, tkn .NUMBER "1" 2, tkn .RPAREN ")" 3]

/-- Source `(1,)`. -/
def c3OneToks : List Tok :=
  [tkn .LPAREN "(" 1, tkn .NUMBER "1" 2, tkn .COMMA "," 3, tkn .RPAREN ")" 4]

/-- Source `(1,2)`. -/
def c3TwoToks : List Tok :=
  [tkn .LPAREN "(" 1, tkn .NUMBER "1" 2, tkn .COMMA "," 3, tkn .NUMBER "2" 4,
   tkn .RPAREN ")" 5]

/-- Source `2 ** 3 ** 2`. -/
def c4PowToks : List Tok :=
  [tkn .NUMBER "2" 1, tkn .POWER "**" 3, tkn .NUMBER "3" 6, tkn .POWER "**" 8,
   tkn .NUMBER "2" 11]

/-- Source `x = y = 1`. -/
def c4AssignToks : List Tok :=
  [tkn .IDENTIFIER "x" 1, tkn .ASSIGN "=" 3, tkn .IDENTIFIER "y" 5, tkn .ASSIGN "=" 7,
   tkn .NUMBER "1" 9]

/-- Source `2 op 3 op 2` parses and renders left-associated, i.e. as
((2 op 3) op 2). -/
def leftAssocCheck (ty : TokenType) (lit : String) : Bool :=
  let toks := [tkn .NUMBER "2" 1, ⟨⟨"", 0, 1, 3⟩, ty, lit⟩, tkn .NUMBER "3" 5,
               ⟨⟨"", 0, 1, 7⟩, ty, lit⟩, tkn .NUMBER "2" 9]
  renderFirst toks == some ("((2 " ++ lit ++ " 3) " ++ lit ++ " 2)")

/-- Every binary operator registered to parseInfixExpression. -/
def c4BinOps : List (TokenType × String) :=
  [(.PLUS, "+"), (.MINUS, "-"), (.MULTIPLY, "*"), (.DIVIDE, "/"), (.MOD, "%"),
   (.LT, "<"), (.LE, "<="), (.GT, ">"), (.GE, ">="), (.EQ, "=="), (.NEQ, "!="),
   (.AND, "&&"), (.OR, "||"), (.MATCH, "=~"), (.NOTMATCH, "!~")]

/-- Shape probe: an assignment whose right-hand value is itself an
assignment (the right-nested chain a left-associative parse of
`x = y = 1` could not produce, since its right operand would be the
scalar). -/
def isRightNestedAssign : Option Expr → Bool
  | some (.assignExpr _ _ (some (.assignExpr _ _ _))) => true
  | _ => false

/-- Shape probe: the parse produced a switch-expression node. -/
def isSwitchResult : Option Expr → Bool
  | some (.switchExpr _ _ _ _) => true
  | _ => false

/-- Source `switch x { case 1 { fallthrough 2 } }`: the fallthrough is
not its block's final statement. -/
def c5NonFinalToks : List Tok :=
  [tkn .SWITCH "switch" 1, tkn .IDENTIFIER "x" 8, tkn .LBRACE "\x7b" 10,
   tkn .CASE "case" 12, tkn .NUMBER "1" 17, tkn .LBRACE "\x7b" 19,
   tkn .FALLTHROUGH "fallthrough" 21, tkn .NUMBER "2" 33, tkn .RBRACE "\x7d" 35,
   tkn .RBRACE "\x7d" 37]

/-- Source `switch x { case 1 { fallthrough } }`: the fallthrough is
final but its case is the switch's last. -/
def c5LastCaseToks : List Tok :=
  [tkn .SWITCH "switch" 1, tkn .IDENTIFIER "x" 8, tkn .LBRACE "\x7b" 10,
   tkn .CASE "case" 12, tkn .NUMBER "1" 17, tkn .LBRACE "\x7b" 19,
   tkn .FALLTHROUGH "fallthrough" 21, tkn .RBRACE "\x7d" 33, tkn .RBRACE "\x7d" 35]

/-- Source `switch x { case 1 { fallthrough } default { 2 } }`: the
fallthrough is the final statement of a non-last case. -/
def c5LegalToks : List Tok :=
  [tkn .SWITCH "switch" 1, tkn .IDENTIFIER "x" 8, tkn .LBRACE "\x7b" 10,
   tkn .CASE "case" 12, tkn .NUMBER "1" 17, tkn .LBRACE "\x7b" 19,
   tkn .FALLTHROUGH "fallthrough" 21, tkn .RBRACE "\x7d" 33,
   tkn .DEFAULT "default" 35, tkn .LBRACE "\x7b" 43, tkn .NUMBER "2" 45,
   tkn .RBRACE "\x7d" 47, tkn .RBRACE "\x7d" 49]

/-- Source `1 @` — an expression statement whose trailing token is an
illegal token. -/
def c6TrailToks : List Tok := [tkn .NUMBER "1" 1, tkn .ILLEGAL "@" 3]

/-- Source `@` — an illegal token in leading position. -/
def c6LeadToks : List Tok := [tkn .ILLEGAL "@" 1]

/-- Source `switch x { default { 1 } default { 2 } }` with the second
default keyword at column 30. -/
def c7TwoDefaultToks : List Tok :=
  [tkn .SWITCH "switch" 1, tkn .IDENTIFIER "x" 8, tkn .LBRACE "\x7b" 10,
   tkn .DEFAULT "default" 12, tkn .LBRACE "\x7b" 20, tkn .NUMBER "1" 22,
   tkn .RBRACE "\x7d" 24, tkn .DEFAULT "default" 30, tkn .LBRACE "\x7b" 38,
   tkn .NUMBER "2" 40, tkn .RBRACE "\x7d" 42, tkn .RBRACE "\x7d" 44]

/-- Source `switch x { default { 1 } }`. -/
def c7OneDefaultToks : List Tok :=
  [tkn .SWITCH "switch" 1, tkn .IDENTIFIER "x" 8, tkn .LBRACE "\x7b" 10,
   tkn .DEFAULT "default" 12, tkn .LBRACE "\x7b" 20, tkn .NUMBER "1" 22,
   tkn .RBRACE "\x7d" 24, tkn .RBRACE "\x7d" 26]

/-- The duplicate-default message test used to count diagnostics. -/
def mentionsDupDefault (m : String) : Bool :=
  decide (("more than one default are not allowed").toList.IsInfix m.toList)

/-- Source `break` at top level. -/
def c8BreakToks : List Tok := [tkn .BREAK "break" 1]

/-- Source `continue` at top level. -/
def c8ContinueToks : List Tok := [tkn .CONTINUE "continue" 1]

/-- Source `for { break }`. -/
def c8ForBreakToks : List Tok :=
  [tkn .FOR "for" 1, tkn .LBRACE "\x7b" 5, tkn .BREAK "break" 7, tkn .RBRACE "\x7d" 13]

/-- Modelled import file system: path `m` resolves to a file whose
token stream is the single numeral 42. -/
def c9fs : List (String × List Tok) := [("m", [tkn .NUMBER "42" 1])]

/-- Source `import m` twice (lines 1 and 2) followed by `7`. -/
def c9toks : List Tok :=
  [tknL 1 .IMPORT "import" 1, tknL 1 .IDENTIFIER "m" 8,
   tknL 2 .IMPORT "import" 1, tknL 2 .IDENTIFIER "m" 8,
   tknL 3 .NUMBER "7" 1]

/-- The nested Program parsed from the imported file `m`. -/
def c9Imported : Prog :=
  .mk [.exprStmt (tkn .NUMBER "42" 1) (some (.numberLit (tkn .NUMBER "42" 1) "42"))] []

/-- A block statement containing one ExpressionStatement whose
Expression is absent. -/
def c10Block : Stmt :=
  .blockStmt (tkn .LBRACE "\x7b" 1) [.exprStmt (tkn .LBRACE "\x7b" 1) none]
    (tkn .RBRACE "\x7d" 3)

/-- The same block shape with a non-empty-rendering statement. -/
def c10GoodBlock : Stmt :=
  .blockStmt (tkn .LBRACE "\x7b" 1)
    [.exprStmt (tkn .NUMBER "1" 1) (some (.numberLit (tkn .NUMBER "1" 1) "1"))]
    (tkn .RBRACE "\x7d" 3)

/-- C1 (counterexample): the claim says every leaf's End() advances the
column by the rune count of the literal, never its byte length — but
NilLiteral.End uses Go len(); on a NIL token whose literal has rune
count 3 and byte length 4 at column 5, End() lands at column 9, not the
rune-count column 8 the claim requires. -/
theorem C1_counterexample_nilLiteral_end_byte_length :
    endPosExpr 9 (.nilLit nilCounterTok) = some ⟨"", 0, 1, 9⟩ ∧
    strRuneCount nilCounterTok.literal = 3 ∧
    strByteLen nilCounterTok.literal = 4 ∧
    endPosExpr 9 (.nilLit nilCounterTok) ≠
      some ⟨nilCounterTok.pos.filename, 0, nilCounterTok.pos.line,
        nilCounterTok.pos.col + (strRuneCount nilCounterTok.literal : Int)⟩ := by
  refine ⟨rfl, rfl, rfl, ?_⟩
  decide

/-- C1 (amended): Identifier.End advances the column by the rune count
of the Value, NumberLiteral.End and BooleanLiteral.End by the rune
count of the token literal, while NilLiteral.End advances it by the
byte length of the token literal (coinciding with the rune count only
on all-ASCII literals such as the canonical nil); for nodes with
children — infix, prefix, expression statement — End() is the last
child's End(). -/
theorem C1_amended_end_positions (f : Nat) (tok : Tok) (v op : String) (b : Bool)
    (l : Option Expr) (r e : Expr) :
    endPosExpr (f+1) (.identifier tok v) =
      some ⟨tok.pos.filename, 0, tok.pos.line, tok.pos.col + (strRuneCount v : Int)⟩ ∧
    endPosExpr (f+1) (.numberLit tok v) =
      some ⟨tok.pos.filename, 0, tok.pos.line,
        tok.pos.col + (strRuneCount tok.literal : Int)⟩ ∧
    endPosExpr (f+1) (.booleanLit tok b) =
      some ⟨tok.pos.filename, 0, tok.pos.line,
        tok.pos.col + (strRuneCount tok.literal : Int)⟩ ∧
    endPosExpr (f+1) (.nilLit tok) =
      some ⟨tok.pos.filename, 0, tok.pos.line,
        tok.pos.col + (strByteLen tok.literal : Int)⟩ ∧
    endPosExpr (f+2) (.infixExpr tok op l (some r)) = endPosExpr f r ∧
    endPosExpr (f+2) (.prefixExpr tok op (some r)) = endPosExpr f r ∧
    endPosStmt (f+2) (.exprStmt tok (some e)) = endPosExpr f e := by
  exact ⟨rfl, rfl, rfl, rfl, rfl, rfl, rfl⟩

/-- C2 (counterexample): on the token stream of `while 1` (no loop
body), parseWhileLoopExpression takes its missing-brace error return:
it starts from loopDepth 0, reports the error, yields no node — and
returns with loopDepth still 1, not restored to its pre-invocation
value as the claim requires. -/
theorem C2_counterexample_while_error_leaks_loopDepth :
    (newParser [] c2WhileErrToks).loopDepth = 0 ∧
    (parseWhileLoopExpression 99 (newParser [] c2WhileErrToks)).1 = none ∧
    (parseWhileLoopExpression 99 (newParser [] c2WhileErrToks)).2.errors ≠ [] ∧
    (parseWhileLoopExpression 99 (newParser [] c2WhileErrToks)).2.loopDepth = 1 := by
  refine ⟨rfl, rfl, ?_, rfl⟩
  decide

/-- C2 (amended): each loop-parsing function increments loopDepth
before its body is parsed (a break inside the body is accepted) and
decrements it on return for every successful form — do, while,
bare for, C-style for, array foreach, map foreach — but the
invalid-loop-variable error return of parseForLoopExpression and the
missing-brace error return of parseWhileLoopExpression return with
loopDepth still incremented. -/
theorem C2_amended_loopDepth_balance :
    (parseDoLoopExpression 99 (newParser [] c2DoToks)).2.loopDepth = 0 ∧
    (parseDoLoopExpression 99 (newParser [] c2DoToks)).1.isSome = true ∧
    (parseProgram 99 (newParser [] c2DoBreakToks)).2.errors = [] ∧
    (parseWhileLoopExpression 99 (newParser [] c2WhileOkToks)).2.loopDepth = 0 ∧
    (parseWhileLoopExpression 99 (newParser [] c2WhileOkToks)).1.isSome = true ∧
    (parseProgram 99 (newParser [] c2WhileBreakToks)).2.errors = [] ∧
    (parseForLoopExpression 99 (newParser [] c2ForEverToks)).2.loopDepth = 0 ∧
    (parseForLoopExpression 99 (newParser [] c2CForToks)).2.loopDepth = 0 ∧
    (parseForLoopExpression 99 (newParser [] c2ForEachArrToks)).2.loopDepth = 0 ∧
    (parseForLoopExpression 99 (newParser [] c2ForEachMapToks)).2.loopDepth = 0 ∧
    (parseWhileLoopExpression 99 (newParser [] c2WhileErrToks)).2.loopDepth = 1 ∧
    (parseForLoopExpression 99 (newParser [] c2ForErrToks)).1 = none ∧
    (parseForLoopExpression 99 (newParser [] c2ForErrToks)).2.loopDepth = 1 := by
  exact ⟨rfl, rfl, rfl, rfl, rfl, rfl, rfl, rfl, rfl, rfl, rfl, rfl, rfl⟩

/-- C3: `()` parses to an empty TupleLiteral, `(1)` to the bare inner
number with no tuple wrapper, `(1,)` to a one-member TupleLiteral, and
`(1,2)` to a two-member TupleLiteral — each with no diagnostics. -/
theorem C3_grouped_tuple_disambiguation :
    (parseProgram 99 (newParser [] c3EmptyToks)).1.statements =
      [.exprStmt (tkn .LPAREN "(" 1) (some (.tupleLit (tkn .LPAREN "(" 1) []))] ∧
    (parseProgram 99 (newParser [] c3EmptyToks)).2.errors = [] ∧
    (parseProgram 99 (newParser [] c3ScalarToks)).1.statements =
      [.exprStmt (tkn .LPAREN "(" 1) (some (.numberLit (tkn .NUMBER "1" 2) "1"))] ∧
    (parseProgram 99 (newParser [] c3ScalarToks)).2.errors = [] ∧
    (parseProgram 99 (newParser [] c3OneToks)).1.statements =
      [.exprStmt (tkn .LPAREN "(" 1)
        (some (.tupleLit (tkn .LPAREN "(" 1) [some (.numberLit (tkn .NUMBER "1" 2) "1")]))] ∧
    (parseProgram 99 (newParser [] c3OneToks)).2.errors = [] ∧
    (parseProgram 99 (newParser [] c3TwoToks)).1.statements =
      [.exprStmt (tkn .LPAREN "(" 1)
        (some (.tupleLit (tkn .LPAREN "(" 1)
          [some (.numberLit (tkn .NUMBER "1" 2) "1"),
           some (.numberLit (tkn .NUMBER "2" 4) "2")]))] ∧
    (parseProgram 99 (newParser [] c3TwoToks)).2.errors = [] := by
  exact ⟨rfl, rfl, rfl, rfl, rfl, rfl, rfl, rfl⟩

/-- C4 (counterexample): assignment is a registered binary infix
operator (precedence ASSIGN), yet `x = y = 1` parses with no
diagnostics into the right-nested tree x = (y = 1) — the top
assignment's value operand is itself an assignment, which a
left-associative parse could not produce (its right operand would be
the scalar 1). So not every binary operator other than ** is
left-associative. -/
theorem C4_counterexample_assignment_right_nested :
    stmtExpression
        ((parseProgram 99 (newParser [] c4AssignToks)).1.statements.headD
          (.exprStmt eofTok none)) =
      some (.assignExpr (tkn .ASSIGN "=" 3)
        (some (.identifier (tkn .IDENTIFIER "x" 1) "x"))
        (some (.assignExpr (tkn .ASSIGN "=" 7)
          (some (.identifier (tkn .IDENTIFIER "y" 5) "y"))
          (some (.numberLit (tkn .NUMBER "1" 9) "1"))))) ∧
    isRightNestedAssign
        (stmtExpression
          ((parseProgram 99 (newParser [] c4AssignToks)).1.statements.headD
            (.exprStmt eofTok none))) = true ∧
    (parseProgram 99 (newParser [] c4AssignToks)).2.errors = [] := by
  exact ⟨rfl, rfl, rfl⟩

/-- C4 (amended): exponentiation is right-associative — `2 ** 3 ** 2`
parses and renders as (2 ** (3 ** 2)), via the one-less precedence
parseInfixExpression uses for the right operand of ** — and each of the
fifteen binary operators dispatched to parseInfixExpression is
left-associative; assignment, parsed by parseAssignExpression with its
right side at lowest precedence, instead nests to the right. -/
theorem C4_amended_associativity :
    renderFirst c4PowToks = some "(2 ** (3 ** 2))" ∧
    (parseProgram 99 (newParser [] c4PowToks)).2.errors = [] ∧
    (c4BinOps.all fun p => leftAssocCheck p.1 p.2) = true ∧
    isRightNestedAssign
        (stmtExpression
          ((parseProgram 99 (newParser [] c4AssignToks)).1.statements.headD
            (.exprStmt eofTok none))) = true := by
  exact ⟨rfl, rfl, rfl, rfl⟩

/-- C5: after the case list is parsed, the switch post-pass reports a
fallthrough that is not its block's final statement, and a fallthrough
occurring in the switch's last case, as two distinct errors; a
fallthrough that is the final statement of a non-last case produces
zero diagnostics and the switch node is built. -/
theorem C5_fallthrough_validation :
    (parseProgram 99 (newParser [] c5NonFinalToks)).2.errors =
      ["Syntax Error:1- fallthrough can be used only as a last statement inside case clause"] ∧
    (parseProgram 99 (newParser [] c5LastCaseToks)).2.errors =
      ["Syntax Error:1- cannot fallthrough final case in switch"] ∧
    (parseProgram 99 (newParser [] c5LegalToks)).2.errors = [] ∧
    isSwitchResult
        (stmtExpression
          ((parseProgram 99 (newParser [] c5LegalToks)).1.statements.headD
            (.exprStmt eofTok none))) = true := by
  exact ⟨rfl, rfl, rfl, rfl⟩

/-- C6 (code evaluated at the failing input): registerAction leaves the
infix dispatch table with no entry for the illegal token type — the
line meant to populate it calls registerPrefix with
parseInfixIllegalExpression, overwriting the prefix entry instead — so
parsing the expression statement `1 @` records no diagnostic for the
trailing illegal token, while an illegal token in leading position
still records the Illegal-token diagnostic through the overwritten
prefix entry. -/
theorem C6_illegal_infix_registration_slip :
    infixFnFor .ILLEGAL = none ∧
    prefixFnFor .ILLEGAL = some .infixIllegal ∧
    (parseExpressionStatement 99 (newParser [] c6TrailToks)).2.errors = [] ∧
    (parseProgram 99 (newParser [] c6LeadToks)).2.errors =
      ["Syntax Error: <1:1>  - Illegal token found. Literal: \x27@\x27"] ∧
    ("Illegal token found").toList.IsInfix
      ("Syntax Error: <1:1>  - Illegal token found. Literal: \x27@\x27").toList := by
  refine ⟨rfl, rfl, rfl, rfl, ?_⟩
  decide

/-- C7: a switch with two default cases reports the
more-than-one-default error exactly once, at the second default's
position (column 30, not the first default's column 12); a switch with
exactly one default produces no diagnostics at all. -/
theorem C7_duplicate_default :
    ((parseProgram 99 (newParser [] c7TwoDefaultToks)).2.errors.filter mentionsDupDefault) =
      ["Syntax Error: <1:30> - more than one default are not allowed"] ∧
    (tkn .DEFAULT "default" 30).pos.str = " <1:30> " ∧
    (" <1:30> ").toList.IsInfix
      ("Syntax Error: <1:30> - more than one default are not allowed").toList ∧
    ¬ (" <1:12> ").toList.IsInfix
      ("Syntax Error: <1:30> - more than one default are not allowed").toList ∧
    (parseProgram 99 (newParser [] c7OneDefaultToks)).2.errors = [] := by
  refine ⟨rfl, rfl, ?_, ?_, rfl⟩ <;> decide

/-- C8: a break (or continue) at loop depth zero records exactly one
diagnostic mentioning outside-of-loop-context and yields no expression
node, while `for { break }` parses with zero diagnostics. -/
theorem C8_break_continue_loop_context :
    (parseProgram 99 (newParser [] c8BreakToks)).2.errors =
      ["Syntax Error: <1:1> - \x27break\x27 outside of loop context"] ∧
    ("outside of loop context").toList.IsInfix
      ("Syntax Error: <1:1> - \x27break\x27 outside of loop context").toList ∧
    (parseProgram 99 (newParser [] c8BreakToks)).1.statements =
      [.exprStmt (tkn .BREAK "break" 1) none] ∧
    (parseProgram 99 (newParser [] c8ContinueToks)).2.errors =
      ["Syntax Error: <1:1> - \x27continue\x27 outside of loop context"] ∧
    (parseProgram 99 (newParser [] c8ForBreakToks)).2.errors = [] := by
  refine ⟨rfl, ?_, rfl, rfl, rfl⟩
  decide

set_option maxHeartbeats 2000000 in
/-- C9: with `import m` appearing twice in one file (lines 1 and 2) and
path m resolving to a file parsing cleanly, the resulting Program's map
of imports holds exactly one entry for m, carrying the ImportStatement
of the first encounter (the line-1 import token); the parse reports no
diagnostics. -/
theorem C9_import_dedup_first_encounter :
    (parseProgram 99 (newParser c9fs c9toks)).1.imports =
      [("m", .importStmt (tknL 1 .IMPORT "import" 1) "m" (some c9Imported))] ∧
    (parseProgram 99 (newParser c9fs c9toks)).2.errors = [] ∧
    (parseProgram 99 (newParser c9fs c9toks)).1.statements =
      [.exprStmt (tknL 3 .NUMBER "7" 1) (some (.numberLit (tknL 3 .NUMBER "7" 1) "7"))] := by
  exact ⟨rfl, rfl, rfl⟩

/-- C10: an ExpressionStatement with an absent Expression renders as
the empty string, and on a BlockStatement containing it String()
reaches the out-of-range slice str[len(str)-1:] with len(str) = 0 — a
runtime panic, modelled as none — while the same block shape whose
statement renders non-empty is rendered normally. -/
theorem C10_block_string_empty_statement_panic :
    stmtStr 9 (.exprStmt (tkn .LBRACE "\x7b" 1) none) = some "" ∧
    stmtStr 9 c10Block = none ∧
    stmtStr 9 c10GoodBlock = some "1;" := by
  exact ⟨rfl, rfl, rfl⟩
